import Mathlib

/-!
Shallow embedding of the TENON deterministic evidence pipeline core.

Each definition translates one Python function or class of the repository;
the doc comment of a definition names its source file.  Modelling
conventions used throughout:

* Python `bytes` and ISO-8601 timestamps are modelled as `String`
  (the source compares timestamps with the string comparison operators).
* SHA-256 / MD5 digests are modelled by an explicit hash parameter
  `h : String → String`; theorems that rely on collision-freeness take an
  injectivity hypothesis, which the real hash functions are designed to
  satisfy.  Witnesses instantiate the parameter with the identity.
* Python `dict` records are modelled as association lists
  `List (String × Value)`; `dict.get` is `pyGet`, which collapses a stored
  `None` and an absent key to `Option.none`, exactly like the source.
* Python floats appearing only as fixed one-decimal confidence and score
  constants (`0.8`, `0.5`, …) are modelled exactly as integer tenths
  (`8`, `5`, … : `Nat`), which preserves every comparison the source
  performs on them.
-/

namespace Tenon

/-- A JSON-like scalar value stored in a record field
(`src/core/canonical_ids/*` passes strings, ints and `None`). -/
inductive Value where
  | vstr (s : String)
  | vint (n : Int)
  | vnull
deriving DecidableEq, Repr

/-- A Python `dict`-like record: an association list from field names to
values.  Lookup takes the first binding, as dict keys are unique. -/
abbrev Event := List (String × Value)

/-- Python `event.get(field)`: returns `none` both when the key is absent
and when the stored value is `None`. -/
def pyGet (e : Event) (f : String) : Option Value :=
  match e.lookup f with
  | some .vnull => none
  | some v => some v
  | none => none

/-- Python truthiness of a value retrieved with `.get`
(`None`, `""` and `0` are falsy). -/
def truthy (o : Option Value) : Bool :=
  match o with
  | none => false
  | some (.vstr s) => s ≠ ""
  | some (.vint n) => n ≠ 0
  | some .vnull => false

/-- Python `str(x)` for a value (used in interpolated reason strings). -/
def pyStr (o : Option Value) : String :=
  match o with
  | none => "None"
  | some (.vstr s) => s
  | some (.vint n) => toString n
  | some .vnull => "None"

/-- Python `str.strip()`: drop surrounding whitespace.  Implemented on the
character list so that it evaluates inside the kernel. -/
def pyStrip (s : String) : String :=
  String.mk (((s.data.dropWhile Char.isWhitespace).reverse.dropWhile
    Char.isWhitespace).reverse)

/-- Python string `<` (lexicographic on code points), as a boolean on
character lists. -/
def charsLt : List Char → List Char → Bool
  | [], [] => false
  | [], _ :: _ => true
  | _ :: _, [] => false
  | a :: as, b :: bs =>
    if a.toNat < b.toNat then true
    else if b.toNat < a.toNat then false
    else charsLt as bs

/-- Python string `<` on strings. -/
def strLt (a b : String) : Bool :=
  charsLt a.data b.data

/-- Python string `<=` on strings (`a <= b ↔ ¬ b < a` for a total order). -/
def strLe (a b : String) : Bool :=
  !strLt b a

namespace IdempotencyKeyGenerator

/-- Model of `IdempotencyKeyGenerator.KEY_FIELDS_PRIORITY` from
`src/core/canonical_ids/idempotency_key.py`. -/
def KEY_FIELDS_PRIORITY : List String :=
  [ "source_event_id"
  , "external_reference"
  , "source_system"
  , "source_timestamp"
  , "observed_at"
  , "amount"
  , "currency"
  , "direction"
  , "event_type"
  , "normalizer_version"
  , "adapter_version"
  , "schema_version"
  , "_canonicalization_context" ]

/-- Value normalisation inside `IdempotencyKeyGenerator.generate`:
ints are rendered with `str`, strings are stripped of surrounding
whitespace.  (The float branch of the source is not exercised by any
claim; float-valued fields are outside this embedding.) -/
def normalizeValue (v : Value) : String :=
  match v with
  | .vstr s => pyStrip s
  | .vint n => toString n
  | .vnull => ""

/-- The `components` list built by `IdempotencyKeyGenerator.generate`:
for each priority field present and non-null, the string
`"field:value"` with the normalised value. -/
def keyComponents (e : Event) : List String :=
  KEY_FIELDS_PRIORITY.filterMap fun f =>
    (pyGet e f).map fun v => f ++ ":" ++ normalizeValue v

/-- Python `"|".join(components)` (`str.join` on the component list). -/
def joinBar : List String → String
  | [] => ""
  | [x] => x
  | x :: y :: xs => x ++ "|" ++ joinBar (y :: xs)

/-- The pre-hash `key_string` of `IdempotencyKeyGenerator.generate`. -/
def keyString (e : Event) : String :=
  joinBar (keyComponents e)

/-- Model of `IdempotencyKeyGenerator.generate`: the deterministic idempotency key
`"v<version>:<hash of key_string>"`.  The SHA-256 hex digest is the
parameter `h`. -/
def generate (h : String → String) (version : String) (e : Event) : String :=
  "v" ++ version ++ ":" ++ h (keyString e)

/-- Field removal, modelling a dict in which `f` was never set. -/
def removeField (e : Event) (f : String) : Event :=
  e.filter fun p => p.1 ≠ f

/-- Field assignment `e[f] = v`, modelling the Python dict update. -/
def setField (e : Event) (f : String) (v : Value) : Event :=
  removeField e f ++ [(f, v)]

/-- Decidable statement that every key-field value of the event
normalises to a string free of the `|` separator. -/
def pipeFreeEvent (e : Event) : Bool :=
  KEY_FIELDS_PRIORITY.all fun f =>
    match pyGet e f with
    | some v => !(normalizeValue v).data.contains '|'
    | none => true

end IdempotencyKeyGenerator

/-- Model of `IdentityDecision` from `src/core/canonical_ids/identity_decider.py`. -/
inductive IdentityDecision where
  | ACCEPT
  | REJECT_DUPLICATE
  | FLAG_AMBIGUOUS
deriving DecidableEq, Repr

/-- Model of `IdentityMatch` from `src/core/canonical_ids/identity_decider.py`.
`match_score` is in integer tenths (`0.0 → 0`, `0.5 → 5`, `1.0 → 10`). -/
structure IdentityMatch where
  decision : IdentityDecision
  matched_event_id : Option Value := none
  match_score : Nat := 0
  conflicting_fields : List String := []
  reason : String := ""
deriving DecidableEq, Repr

namespace IdentityDecider

/-- The `critical_fields` list of `IdentityDecider._find_conflicts`. -/
def criticalFields : List String :=
  ["amount", "currency", "direction", "event_type", "source_system"]

/-- Model of `IdentityDecider._find_conflicts`: the critical fields on which the
two events disagree (comparing `dict.get` results). -/
def findConflicts (event1 event2 : Event) : List String :=
  criticalFields.filter fun f => pyGet event1 f ≠ pyGet event2 f

/-- Model of `IdentityDecider.decide` from
`src/core/canonical_ids/identity_decider.py`.  `existing` is the
`existing_events` dict, an association list from idempotency key to
stored event (dict iteration order is insertion order). -/
def decide (idempotency_key : String) (event : Event)
    (existing : List (String × Event)) : IdentityMatch :=
  if existing = [] then
    { decision := .ACCEPT, reason := "No existing events" }
  else
    match existing.lookup idempotency_key with
    | some existing_event =>
      let conflicts := findConflicts event existing_event
      if conflicts = [] then
        { decision := .REJECT_DUPLICATE
          matched_event_id := pyGet existing_event "event_id"
          match_score := 10
          reason := "Exact duplicate of event " ++
            pyStr (pyGet existing_event "event_id") }
      else
        { decision := .FLAG_AMBIGUOUS
          matched_event_id := pyGet existing_event "event_id"
          match_score := 5
          conflicting_fields := conflicts
          reason := "Partial match (same key, different fields) with event "
            ++ pyStr (pyGet existing_event "event_id") }
    | none =>
      let source_id := pyGet event "source_event_id"
      if truthy source_id then
        match existing.find? (fun p => pyGet p.2 "source_event_id" = source_id) with
        | some p =>
          { decision := .FLAG_AMBIGUOUS
            matched_event_id := pyGet p.2 "event_id"
            match_score := 5
            conflicting_fields := findConflicts event p.2
            reason := "Identity collision on source_event_id: " ++ pyStr source_id }
        | none =>
          { decision := .ACCEPT
            reason := "No existing event matches this identity" }
      else
        { decision := .ACCEPT
          reason := "No existing event matches this identity" }

end IdentityDecider

/-- Model of `LedgerEntryType` from
`src/core/immutable_ledger_worm/v1/ledger_entry.py`. -/
inductive LedgerEntryType where
  | EVIDENCE_SNAPSHOT
  | STATE_CHECKPOINT
  | AUDIT_RECORD
  | DISCREPANCY_LOG
deriving DecidableEq, Repr

/-- The `.value` string of a `LedgerEntryType`. -/
def LedgerEntryType.value : LedgerEntryType → String
  | .EVIDENCE_SNAPSHOT => "EVIDENCE_SNAPSHOT"
  | .STATE_CHECKPOINT => "STATE_CHECKPOINT"
  | .AUDIT_RECORD => "AUDIT_RECORD"
  | .DISCREPANCY_LOG => "DISCREPANCY_LOG"

/-- Model of `RetentionPolicy` from `ledger_entry.py` (the ISO-format regex check
of `__post_init__` only constrains construction and is not needed by the
chain-integrity claims). -/
structure RetentionPolicy where
  retention_period : String
  immutable_until : String
deriving DecidableEq, Repr

/-- Model of `LedgerEntry` from `ledger_entry.py`; `content` models the raw bytes. -/
structure LedgerEntry where
  sequence_number : Nat
  entry_type : LedgerEntryType
  content : String
  content_hash : String
  written_at : String
  retention_policy : RetentionPolicy
  previous_entry_hash : String
  entry_header_hash : String
deriving DecidableEq, Repr

/-- The 64-zero previous-hash of the genesis entry. -/
def zeros64 : String :=
  String.mk (List.replicate 64 '0')

/-- The canonical header string
`seq|type|content_hash|written_at|previous_entry_hash` hashed by both
`WORMLedger.append` and `WORMLedger.verify_chain`. -/
def headerCanonical (seq : Nat) (t : LedgerEntryType) (content_hash written_at previous : String) : String :=
  toString seq ++ "|" ++ t.value ++ "|" ++ content_hash ++ "|" ++
    written_at ++ "|" ++ previous

/-- Model of `WORMLedger` state from
`src/core/immutable_ledger_worm/v1/worm_ledger.py`. -/
structure WORMLedger where
  entries : List LedgerEntry
  next_sequence : Nat
deriving DecidableEq, Repr

namespace WORMLedger

/-- Model of `WORMLedger.__init__`. -/
def init : WORMLedger :=
  { entries := [], next_sequence := 1 }

/-- Model of `WORMLedger.append`: computes the content hash, links to the previous
entry header hash (or 64 zeros), hashes the canonical header, stores the
entry and increments the sequence.  `h` is `sha256_hex`. -/
def append (h : String → String) (l : WORMLedger) (entry_type : LedgerEntryType)
    (content : String) (written_at : String) (retention_policy : RetentionPolicy) :
    LedgerEntry × WORMLedger :=
  let content_hash := h content
  let previous_entry_hash :=
    if l.next_sequence = 1 then zeros64
    else ((l.entries.getLast?).map (·.entry_header_hash)).getD zeros64
  let entry_header_hash :=
    h (headerCanonical l.next_sequence entry_type content_hash written_at previous_entry_hash)
  let entry : LedgerEntry :=
    { sequence_number := l.next_sequence
      entry_type := entry_type
      content := content
      content_hash := content_hash
      written_at := written_at
      retention_policy := retention_policy
      previous_entry_hash := previous_entry_hash
      entry_header_hash := entry_header_hash }
  (entry, { entries := l.entries ++ [entry], next_sequence := l.next_sequence + 1 })

/-- The loop body of `WORMLedger.verify_chain`, threading the expected
previous header hash exactly as the Python loop does via
`self._entries[i - 1].entry_header_hash`. -/
def verifyFrom (h : String → String) (expected_previous : String) :
    List LedgerEntry → Bool × Option String
  | [] => (true, none)
  | entry :: rest =>
    if h entry.content ≠ entry.content_hash then
      (false, some ("Content hash mismatch at sequence " ++ toString entry.sequence_number))
    else if entry.previous_entry_hash ≠ expected_previous then
      (false, some ("Chain break at sequence " ++ toString entry.sequence_number))
    else if h (headerCanonical entry.sequence_number entry.entry_type entry.content_hash
        entry.written_at entry.previous_entry_hash) ≠ entry.entry_header_hash then
      (false, some ("Header hash mismatch at sequence " ++ toString entry.sequence_number))
    else
      verifyFrom h entry.entry_header_hash rest

/-- Model of `WORMLedger.verify_chain`: recompute every content hash, check each
chain link, recompute each header hash; report the first mismatch with
its sequence number. -/
def verify_chain (h : String → String) (l : WORMLedger) : Bool × Option String :=
  verifyFrom h zeros64 l.entries

/-- In-place replacement of the `content` bytes of the entry at list
position `i` (the spec scenario `S5` tampering). -/
def mutateContent (l : WORMLedger) (i : Nat) (c : String) : WORMLedger :=
  { l with entries := l.entries.modify (fun e => { e with content := c }) i }

/-- Ledger states reachable from `init` by `append` calls. -/
inductive Reachable (h : String → String) : WORMLedger → Prop where
  | init : Reachable h init
  | step {l : WORMLedger} (t : LedgerEntryType) (c w : String) (rp : RetentionPolicy) :
      Reachable h l → Reachable h (append h l t c w rp).2

end WORMLedger

/-- Model of `EvidenceEventType` from
`src/core/event_sourcing_evidence/v1/evidence_event.py`. -/
inductive EvidenceEventType where
  | INGEST_RECEIVED
  | NORMALIZATION_APPLIED
  | CORRELATION_MATCH
  | STATE_TRANSITION
  | DISCREPANCY_DETECTED
  | AUDIT_CHECKPOINT
deriving DecidableEq, Repr

/-- Model of `EvidenceEvent` from `evidence_event.py` (the ISO-format regex of
`__post_init__` constrains construction only and is not needed by the
log claims; `payload` is a JSON-like dict). -/
structure EvidenceEvent where
  event_id : String
  event_type : EvidenceEventType
  produced_at : String
  payload : Event
  caused_by : List String
deriving DecidableEq, Repr

/-- Model of `EvidenceLog` state from
`src/core/event_sourcing_evidence/v1/evidence_log.py`.  The Python
`set[str]` of seen event ids is modelled as a duplicate-free list; only
membership in it is ever consulted. -/
structure EvidenceLog where
  events : List (Nat × EvidenceEvent)
  next_sequence : Nat
  last_produced_at : Option String
  event_ids : List String
deriving DecidableEq, Repr

namespace EvidenceLog

/-- Model of `EvidenceLog.__init__`. -/
def init : EvidenceLog :=
  { events := [], next_sequence := 1, last_produced_at := none, event_ids := [] }

/-- Model of `set.add`: insert an id unless already present. -/
def addId (ids : List String) (id : String) : List String :=
  if id ∈ ids then ids else ids ++ [id]

/-- Model of `EvidenceLog.append`: rejects a `produced_at` strictly before the last
appended event and any `caused_by` id that is not already logged;
otherwise stores the event under the next sequence number.  The raised
`ValueError`s become `Except.error`; the state is untouched on error. -/
def append (l : EvidenceLog) (event : EvidenceEvent) :
    Except String (Nat × EvidenceLog) :=
  if (match l.last_produced_at with
      | some lp => strLt event.produced_at lp
      | none => false) then
    .error ("produced_at " ++ event.produced_at ++ " is before last event " ++
      ((l.last_produced_at).getD ""))
  else
    match event.caused_by.find? (fun c => !(l.event_ids.contains c)) with
    | some c => .error ("caused_by references non-existent event_id: " ++ c)
    | none =>
      let sequence_number := l.next_sequence
      .ok (sequence_number,
        { events := l.events ++ [(sequence_number, event)]
          next_sequence := l.next_sequence + 1
          last_produced_at := some event.produced_at
          event_ids := addId l.event_ids event.event_id })

/-- Log states reachable from `init` by successful `append` calls. -/
inductive Reachable : EvidenceLog → Prop where
  | init : Reachable init
  | step {l l' : EvidenceLog} {e : EvidenceEvent} {n : Nat} :
      Reachable l → append l e = .ok (n, l') → Reachable l'

end EvidenceLog

namespace Guardian

/-- Model of `Scope` from `src/core/idempotency_guardian/v1/types.py`. -/
inductive Scope where
  | INGEST
  | CANONICALIZE
  | EVIDENCE_WRITE
deriving DecidableEq, Repr

/-- The `.value` string of a `Scope`. -/
def Scope.value : Scope → String
  | .INGEST => "INGEST"
  | .CANONICALIZE => "CANONICALIZE"
  | .EVIDENCE_WRITE => "EVIDENCE_WRITE"

/-- Model of `Decision` from `types.py`. -/
inductive Decision where
  | ACCEPT_FIRST
  | REJECT_DUPLICATE
  | FLAG_AMBIGUOUS
deriving DecidableEq, Repr

/-- The `.value` string of a `Decision`. -/
def Decision.value : Decision → String
  | .ACCEPT_FIRST => "ACCEPT_FIRST"
  | .REJECT_DUPLICATE => "REJECT_DUPLICATE"
  | .FLAG_AMBIGUOUS => "FLAG_AMBIGUOUS"

/-- Model of `IdempotencyKey` from `types.py`; timestamps and hashes are strings. -/
structure IdempotencyKey where
  key : String
  scope : Scope
  principal : String
  subject : String
  payload_hash : String
  version : String := "1.0.0"
deriving DecidableEq, Repr

/-- Model of `IdempotencyRecord` from `types.py`. -/
structure IdempotencyRecord where
  idempotency_record_id : String
  idempotency_key : String
  scope : Scope
  decision : Decision
  first_seen_at : String
  decided_at : String
  evidence_refs : List String
  rule_version : String
  notes : Option String := none
deriving DecidableEq, Repr

/-- The evidence dict appended to the WORM ledger by `Guardian.check`. -/
structure WormEvidenceEntry where
  type : String
  key : String
  scope : String
  principal : String
  subject : String
  payload_hash : String
  decision : String
  timestamp : String
deriving DecidableEq, Repr

/-- Combined state of the guardian's two ports, using the repository's
in-memory adapters (`tests_systemic/rfc10_idempotency_guardian/_support`):
the store keeps all records in append order with `find_by_key` returning
the first record carrying the key, and the ledger keeps entries in append
order. -/
structure GuardianState where
  store : List IdempotencyRecord
  ledger : List WormEvidenceEntry
deriving DecidableEq, Repr

/-- Model of `InMemoryIdempotencyStore.find_by_key`: the first (original) record
with the given key, or `none`. -/
def find_by_key (store : List IdempotencyRecord) (key : String) :
    Option IdempotencyRecord :=
  store.find? fun r => r.idempotency_key = key

/-- Model of `Guardian.RULE_VERSION`. -/
def RULE_VERSION : String := "1.0.0"

/-- Model of `Guardian._build_fingerprint`. -/
def buildFingerprint (k : IdempotencyKey) : String :=
  k.scope.value ++ "|" ++ k.principal ++ "|" ++ k.subject ++ "|" ++
    k.payload_hash ++ "|" ++ k.version

/-- Model of `Guardian._parse_fingerprint`: the text after a `fingerprint:` prefix
of the notes, else the empty string. -/
def parseFingerprint (notes : Option String) : String :=
  match notes with
  | some s =>
    if List.isPrefixOf "fingerprint:".data s.data then
      String.mk (s.data.drop 12)
    else ""
  | none => ""

/-- Model of `ExecutionGate` from `guardian.py`. -/
structure ExecutionGate where
  decision : Decision
  record : IdempotencyRecord
deriving DecidableEq, Repr

/-- Model of `ExecutionGate.should_execute`: only `ACCEPT_FIRST` allows execution. -/
def ExecutionGate.should_execute (g : ExecutionGate) : Bool :=
  g.decision = .ACCEPT_FIRST

/-- Model of `Guardian.check` from `src/core/idempotency_guardian/v1/guardian.py`.
`now` models `datetime.utcnow()`, `rid` the generated `uuid.uuid4()`
record id, and `ref` the ledger reference produced by the port's
`append_entry` (a fresh uuid in the in-memory adapter); the three are
injected so the embedding stays deterministic. -/
def check (g : GuardianState) (idempotency_key : IdempotencyKey)
    (now rid ref : String) : ExecutionGate × GuardianState :=
  let existing := find_by_key g.store idempotency_key.key
  let dfn : Decision × String × Option String :=
    match existing with
    | none => (.ACCEPT_FIRST, now, none)
    | some ex =>
      let existing_fingerprint := parseFingerprint ex.notes
      let current_fingerprint := buildFingerprint idempotency_key
      if existing_fingerprint ≠ current_fingerprint then
        (.FLAG_AMBIGUOUS, ex.first_seen_at,
          some ("Ambiguous: fingerprint mismatch. Expected: " ++
            existing_fingerprint ++ ", Got: " ++ current_fingerprint))
      else
        (.REJECT_DUPLICATE, ex.first_seen_at, none)
  let decision := dfn.1
  let first_seen_at := dfn.2.1
  let evidence_entry : WormEvidenceEntry :=
    { type := "idempotency_check"
      key := idempotency_key.key
      scope := idempotency_key.scope.value
      principal := idempotency_key.principal
      subject := idempotency_key.subject
      payload_hash := idempotency_key.payload_hash
      decision := decision.value
      timestamp := now }
  let notes :=
    if decision = .ACCEPT_FIRST then
      some ("fingerprint:" ++ buildFingerprint idempotency_key)
    else dfn.2.2
  let record : IdempotencyRecord :=
    { idempotency_record_id := rid
      idempotency_key := idempotency_key.key
      scope := idempotency_key.scope
      decision := decision
      first_seen_at := first_seen_at
      decided_at := now
      evidence_refs := [ref]
      rule_version := RULE_VERSION
      notes := notes }
  (⟨decision, record⟩,
    { store := g.store ++ [record], ledger := g.ledger ++ [evidence_entry] })

/-- Model of `Guardian.guard`: run `check` and execute the operation only when the
gate allows it. -/
def guard {T : Type} (g : GuardianState) (idempotency_key : IdempotencyKey)
    (now rid ref : String) (operation : Unit → T) : Option T × GuardianState :=
  let cr := check g idempotency_key now rid ref
  if cr.1.should_execute then (some (operation ()), cr.2)
  else (none, cr.2)

end Guardian

namespace MoneyState

/-- Model of `MONEY_STATES` from `src/core/money_state/v1/types.py`. -/
def MONEY_STATES : List String :=
  [ "EXPECTED", "INITIATED", "AUTHORIZED", "IN_TRANSIT", "SETTLED"
  , "REFUNDED", "REVERSED", "FAILED", "EXPIRED", "AMBIGUOUS", "UNKNOWN" ]

/-- Model of `TransitionRule` from `types.py`. -/
structure TransitionRule where
  from_state : String
  to_state : String
  required_evidence : List String
  forbidden_evidence : List String
  timeout_policy : Event := []
  transition_rule_version : String := "v1"
deriving DecidableEq, Repr

/-- Model of `MoneyStateEvaluation` from `types.py`; `confidence_level` is in
integer tenths. -/
structure MoneyStateEvaluation where
  evaluation_id : String
  flow_id : String
  event_id : String
  timestamp : String
  state : String
  transition_reason : String
  evidence_pointer : String
  state_version : String
  machine_version : String
  confidence_level : Nat
  evaluated_at : String
deriving DecidableEq, Repr

/-- Model of `MoneyStateMachine` configuration (the append-only store is not used
by `evaluate` and is omitted; the constructor's state validation only
constrains construction). -/
structure MoneyStateMachine where
  transitions : List TransitionRule
  machine_version : String := "v1"
  state_version : String := "v1"
deriving DecidableEq, Repr

/-- The event-type branch ladder of `MoneyStateMachine._extract_evidence`. -/
def evidenceOfEventType (v : Value) : Option String :=
  if v = .vstr "payment_initiated" then some "INITIATION_SIGNAL"
  else if v = .vstr "authorization_confirmed" then some "AUTHORIZATION_CONFIRMATION"
  else if v = .vstr "authorization_denied" then some "AUTHORIZATION_DENIAL"
  else if v = .vstr "processing_started" then some "PROCESSING_START"
  else if v = .vstr "settlement_confirmed" then some "SETTLEMENT_CONFIRMATION"
  else if v = .vstr "processing_failed" then some "PROCESSING_FAILURE"
  else if v = .vstr "settlement_rejected" then some "SETTLEMENT_REJECTION"
  else if v = .vstr "refund_requested" then some "REFUND_REQUEST"
  else if v = .vstr "refund_confirmed" then some "REFUND_CONFIRMATION"
  else if v = .vstr "reversal_requested" then some "REVERSAL_REQUEST"
  else if v = .vstr "reversal_confirmed" then some "REVERSAL_CONFIRMATION"
  else if v = .vstr "timeout_exceeded" then some "TIMEOUT_EXCEEDED"
  else none

/-- The link-type branch ladder of `MoneyStateMachine._extract_evidence`. -/
def evidenceOfLinkType (v : Value) : Option String :=
  if v = .vstr "SEQUENCE" then some "SEQUENCE_OBSERVED"
  else if v = .vstr "REVERSAL" then some "REVERSAL_LINK"
  else if v = .vstr "REFUND" then some "REFUND_LINK"
  else none

/-- Python `dict.get(key, default)`. -/
def pyGetD (e : Event) (f : String) (d : Value) : Value :=
  match e.lookup f with
  | some v => v
  | none => d

/-- Model of `MoneyStateMachine._extract_evidence`: evidence types projected from
canonical events and correlation links.  Python deduplicates through
`list(set(...))`, whose iteration order is unspecified; the embedding
deduplicates keeping first occurrences — every downstream use is a pure
membership test. -/
def extractEvidence (canonical_events correlation_links : List Event) : List String :=
  ((canonical_events.filterMap fun e => evidenceOfEventType (pyGetD e "event_type" (.vstr ""))) ++
    (correlation_links.filterMap fun l => evidenceOfLinkType (pyGetD l "link_type" (.vstr "")))).eraseDups

/-- The `possible_states` accumulation of
`MoneyStateMachine._determine_state`: one `(to_state, reason, confidence)`
triple per transition whose required evidence is all available and whose
forbidden evidence is absent (the confidence is the constant `0.8`, as
the `else 0.3` arm of the source is unreachable in this branch). -/
def possibleStates (transitions : List TransitionRule) (available : List String) :
    List (String × String × Nat) :=
  transitions.filterMap fun t =>
    if t.required_evidence.all (fun ev => available.contains ev) &&
        !(t.forbidden_evidence.any fun ev => available.contains ev) then
      some (t.to_state, "Transition from " ++ t.from_state ++ " to " ++ t.to_state, 8)
    else none

/-- Python `possible_states.sort(key=..., reverse=True)` followed by
`possible_states[0]`: the stable descending sort puts the first
maximal-confidence element first, which this fold selects directly. -/
def pickBest (p : String × String × Nat) :
    List (String × String × Nat) → String × String × Nat
  | [] => p
  | q :: rest => if q.2.2 > p.2.2 then pickBest q rest else pickBest p rest

/-- Model of `MoneyStateMachine._determine_state` from
`src/core/money_state/v1/machine.py` (the `events`/`links` parameters of
the source are unused by its body and dropped here). -/
def determineState (transitions : List TransitionRule) (available : List String) :
    String × String × Nat :=
  let has_settlement := available.contains "SETTLEMENT_CONFIRMATION"
  let has_failure := available.contains "PROCESSING_FAILURE" ||
    available.contains "SETTLEMENT_REJECTION"
  if has_settlement && has_failure then
    ("AMBIGUOUS", "Contradictory evidence: both settlement and failure signals detected", 5)
  else
    let possible_states := possibleStates transitions available
    match possible_states with
    | [] =>
      if available.contains "SETTLEMENT_CONFIRMATION" then
        ("SETTLED", "Settlement evidence found", 9)
      else if available.contains "PROCESSING_FAILURE" then
        ("FAILED", "Failure evidence found", 9)
      else if available.contains "AUTHORIZATION_CONFIRMATION" then
        ("AUTHORIZED", "Authorization evidence found", 7)
      else if available.contains "INITIATION_SIGNAL" then
        ("INITIATED", "Initiation evidence found", 7)
      else
        ("UNKNOWN", "Insufficient evidence", 1)
    | p :: rest =>
      let state_names := (possible_states).map (·.1)
      if possible_states.length > 1 &&
          ((state_names.contains "SETTLED" && state_names.contains "FAILED") ||
            (state_names.contains "AUTHORIZED" && state_names.contains "FAILED")) then
        ("AMBIGUOUS", "Multiple plausible states detected: conflicting terminal states", 5)
      else
        let best := pickBest p rest
        (best.1, best.2.1, min best.2.2 10)

/-- Python `sorted` for lists of strings (`sorted` is a stable ascending
sort; equal strings are indistinguishable, so insertion sort realises it). -/
def insertStr (a : String) : List String → List String
  | [] => [a]
  | b :: l => if strLe a b then a :: b :: l else b :: insertStr a l

/-- Stable ascending string sort (Python `sorted`). -/
def sortStrs (l : List String) : List String :=
  l.foldr insertStr []

/-- Python `",".join(l)`. -/
def joinComma : List String → String
  | [] => ""
  | [x] => x
  | x :: y :: xs => x ++ "," ++ joinComma (y :: xs)

/-- Python `str(x)` of a raw dict value. -/
def valueAsStr (v : Value) : String :=
  match v with
  | .vstr s => s
  | .vint n => toString n
  | .vnull => "None"

/-- Model of `MoneyStateMachine._generate_evaluation_id`; `md5` is the injected
digest function for `hashlib.md5(...).hexdigest()`. -/
def generateEvaluationId (md5 : String → String) (flow_id : String)
    (events links : List Event) (evaluated_at evidence_pointer : String) : String :=
  let sorted_event_ids := sortStrs (events.map fun e => valueAsStr (pyGetD e "event_id" (.vstr "")))
  let sorted_link_ids := sortStrs (links.map fun l => valueAsStr (pyGetD l "link_id" (.vstr "")))
  md5 (flow_id ++ "|" ++ joinComma sorted_event_ids ++ "|" ++
    joinComma sorted_link_ids ++ "|" ++ evaluated_at ++ "|" ++ evidence_pointer)

/-- Python `min` over a list of strings (first minimum; ties are equal
strings, hence indistinguishable). -/
def minStr (a : String) : List String → String
  | [] => a
  | b :: l => if strLt b a then minStr b l else minStr a l

/-- Python `max` over a list of strings (ties are equal strings). -/
def maxStr (a : String) : List String → String
  | [] => a
  | b :: l => if strLt a b then maxStr b l else maxStr a l

/-- Model of `MoneyStateMachine._select_primary_event_id`: the lexicographically
smallest truthy `event_id`. -/
def selectPrimaryEventId (events : List Event) : String :=
  match events with
  | [] => ""
  | _ =>
    let event_ids := events.filterMap fun e =>
      let v := pyGetD e "event_id" (.vstr "")
      if truthy (some v) then some (valueAsStr v) else none
    match event_ids with
    | [] => ""
    | x :: xs => minStr x xs

/-- Model of `MoneyStateMachine._select_primary_timestamp`: the largest truthy
`timestamp`. -/
def selectPrimaryTimestamp (events : List Event) : String :=
  match events with
  | [] => ""
  | _ =>
    let timestamps := events.filterMap fun e =>
      let v := pyGetD e "timestamp" (.vstr "")
      if truthy (some v) then some (valueAsStr v) else none
    match timestamps with
    | [] => ""
    | x :: xs => maxStr x xs

/-- Model of `MoneyStateMachine.evaluate` from `src/core/money_state/v1/machine.py`. -/
def evaluate (md5 : String → String) (m : MoneyStateMachine) (flow_id : String)
    (canonical_events correlation_links : List Event)
    (evaluated_at evidence_pointer : String) : MoneyStateEvaluation :=
  let available_evidence := extractEvidence canonical_events correlation_links
  let scr := determineState m.transitions available_evidence
  let evaluation_id := generateEvaluationId md5 flow_id canonical_events
    correlation_links evaluated_at evidence_pointer
  let event_id := selectPrimaryEventId canonical_events
  let timestamp := selectPrimaryTimestamp canonical_events
  { evaluation_id := evaluation_id
    flow_id := flow_id
    event_id := event_id
    timestamp := timestamp
    state := scr.1
    transition_reason := scr.2.1
    evidence_pointer := evidence_pointer
    state_version := m.state_version
    machine_version := m.machine_version
    confidence_level := scr.2.2
    evaluated_at := evaluated_at }

end MoneyState

namespace Risk

/-- Model of `RiskSeverityLevel` from `src/core/risk/v1/enums.py`. -/
inductive RiskSeverityLevel where
  | LOW
  | MEDIUM
  | HIGH
  | CRITICAL
deriving DecidableEq, Repr

/-- The `.value` string of a `RiskSeverityLevel`. -/
def RiskSeverityLevel.value : RiskSeverityLevel → String
  | .LOW => "LOW"
  | .MEDIUM => "MEDIUM"
  | .HIGH => "HIGH"
  | .CRITICAL => "CRITICAL"

/-- Model of `RiskAlertType` from `enums.py`. -/
inductive RiskAlertType where
  | EARLY_WARNING
  | RISK_ESCALATION
  | INSTITUTIONAL_BREACH
deriving DecidableEq, Repr

/-- The `.value` string of a `RiskAlertType`. -/
def RiskAlertType.value : RiskAlertType → String
  | .EARLY_WARNING => "EARLY_WARNING"
  | .RISK_ESCALATION => "RISK_ESCALATION"
  | .INSTITUTIONAL_BREACH => "INSTITUTIONAL_BREACH"

/-- The fields of the `RiskAggregate` dict that `AlertBuilder.build`
reads: `overall_risk_level`, `aggregate_id`, `drivers` and the
`risk_signal_id`s of `risk_profile`. -/
structure RiskAggregate where
  overall_risk_level : RiskSeverityLevel
  aggregate_id : String
  drivers : List String
  risk_profile_signal_ids : List String
deriving DecidableEq, Repr

/-- The `raised_at` timestamp handed to `AlertBuilder.build`:
`iso` models `datetime.isoformat()` and `compact` models
`strftime("%Y%m%d%H%M%S")`, both injected renderings of one instant. -/
structure RaisedAt where
  iso : String
  compact : String
deriving DecidableEq, Repr

/-- A `RiskAlert` dict as constructed by `AlertBuilder._build_alert`. -/
structure RiskAlert where
  alert_id : String
  alert_type : RiskAlertType
  aggregate_id : String
  signal_ids : List String
  evidence_refs : List String
  potential_impact : String
  operational_recommendation : String
  raised_at : String
  alert_version : String
deriving DecidableEq, Repr

namespace AlertBuilder

/-- Model of `AlertBuilder._classify_alert_type` (the `else` arm catches `LOW`,
which `build` filters out beforehand). -/
def classifyAlertType (severity : RiskSeverityLevel) : RiskAlertType :=
  if severity = .CRITICAL then .INSTITUTIONAL_BREACH
  else if severity = .HIGH then .RISK_ESCALATION
  else if severity = .MEDIUM then .EARLY_WARNING
  else .EARLY_WARNING

/-- Model of `AlertBuilder._generate_impact`: the deterministic impact template per
alert type, interpolating the overall risk level and driver count. -/
def generateImpact (alert_type : RiskAlertType) (aggregate : RiskAggregate) : String :=
  let overall_risk := aggregate.overall_risk_level.value
  let driver_count := toString aggregate.drivers.length
  match alert_type with
  | .INSTITUTIONAL_BREACH =>
    "IMPACTO CRÍTICO: Violación de umbral institucional detectada. " ++
    "Riesgo global: " ++ overall_risk ++ ". " ++ driver_count ++
    " señal(es) crítica(s) activa(s). " ++
    "Requiere intervención inmediata para prevenir impacto financiero/operativo/legal."
  | .RISK_ESCALATION =>
    "IMPACTO MATERIAL: Riesgo operativo en escalamiento. " ++
    "Riesgo global: " ++ overall_risk ++ ". " ++ driver_count ++
    " señal(es) de alto riesgo activa(s). " ++
    "Degradación sistémica en curso; riesgo de impacto financiero o incumplimiento SLA."
  | .EARLY_WARNING =>
    "IMPACTO INCIPIENTE: Degradación temprana detectada. " ++
    "Riesgo global: " ++ overall_risk ++ ". " ++ driver_count ++
    " señal(es) de riesgo medio activa(s). " ++
    "Ventana de oportunidad para prevenir escalamiento."

/-- Model of `AlertBuilder._generate_recommendation`: the deterministic
recommendation template per alert type. -/
def generateRecommendation (alert_type : RiskAlertType) : String :=
  match alert_type with
  | .INSTITUTIONAL_BREACH =>
    "ACCIÓN INMEDIATA: (1) Revisar señales críticas en drivers. " ++
    "(2) Activar protocolo de respuesta a incidente institucional. " ++
    "(3) Escalar a comité de riesgo. " ++
    "(4) Documentar evidencia para auditoría."
  | .RISK_ESCALATION =>
    "ACCIÓN PRIORITARIA: (1) Analizar tendencia de señales de alto riesgo. " ++
    "(2) Revisar cambios recientes (RFC-12). " ++
    "(3) Evaluar necesidad de rollback o mitigación. " ++
    "(4) Monitorear evolución en próximas ventanas."
  | .EARLY_WARNING =>
    "ACCIÓN PREVENTIVA: (1) Investigar señales de riesgo medio. " ++
    "(2) Identificar causas raíz (discrepancias, correlación, estados). " ++
    "(3) Planificar intervención antes de escalamiento. " ++
    "(4) Documentar hallazgos para gobernanza."

/-- First eight characters of a hex digest (`hexdigest()[:8]`). -/
def first8 (s : String) : String :=
  String.mk (s.data.take 8)

/-- Model of `AlertBuilder._generate_alert_id`; `sha` is the injected SHA-256 hex
digest function. -/
def generateAlertId (sha : String → String) (alert_type : RiskAlertType)
    (raised_at : RaisedAt) : String :=
  let ts := raised_at.compact
  let hash_digest := first8 (sha (alert_type.value ++ "_" ++ ts))
  "ALERT_" ++ alert_type.value ++ "_" ++ ts ++ "_" ++ hash_digest

/-- Model of `AlertBuilder._build_alert`. -/
def buildAlert (sha : String → String) (aggregate : RiskAggregate)
    (alert_type : RiskAlertType) (alert_version : String)
    (raised_at : RaisedAt) : RiskAlert :=
  let signal_ids :=
    if aggregate.drivers = [] then aggregate.risk_profile_signal_ids
    else aggregate.drivers
  { alert_id := generateAlertId sha alert_type raised_at
    alert_type := alert_type
    aggregate_id := aggregate.aggregate_id
    signal_ids := signal_ids
    evidence_refs := ["AGG_EVIDENCE:" ++ aggregate.aggregate_id]
    potential_impact := generateImpact alert_type aggregate
    operational_recommendation := generateRecommendation alert_type
    raised_at := raised_at.iso
    alert_version := alert_version }

/-- Model of `AlertBuilder.build` from `src/core/risk/v1/alert_builder.py`:
no alert for `LOW`, otherwise exactly one alert of the classified type. -/
def build (sha : String → String) (aggregate : RiskAggregate)
    (alert_version : String) (raised_at : RaisedAt) : List RiskAlert :=
  if aggregate.overall_risk_level = .LOW then []
  else
    let alert_type := classifyAlertType aggregate.overall_risk_level
    [buildAlert sha aggregate alert_type alert_version raised_at]

end AlertBuilder

end Risk

namespace ChangeControl

/-- Model of `VersionEntry` from `src/core/change_control/version_registry.py`;
`effective_at` is a timestamp on a total order, modelled as `Nat`. -/
structure VersionEntry where
  component : String
  version : String
  effective_at : Nat
  description : String := ""
deriving DecidableEq, Repr

/-- The registry's `Dict[str, List[VersionEntry]]`, as an association
list from component to its entry list. -/
abbrev Registry := List (String × List VersionEntry)

/-- Stable insertion of an entry into an `effective_at`-sorted list: the
new entry goes after all entries with the same `effective_at`.  This is
exactly `list.append` followed by the stable `list.sort(key=effective_at)`
of `VersionRegistry.register`, whose input is already sorted. -/
def insertByEffective (a : VersionEntry) : List VersionEntry → List VersionEntry
  | [] => [a]
  | b :: l =>
    if a.effective_at < b.effective_at then a :: b :: l
    else b :: insertByEffective a l

/-- Replace the binding of `c` (or create it at the end, as Python dict
insertion does). -/
def setBinding (c : String) (vs : List VersionEntry) : Registry → Registry
  | [] => [(c, vs)]
  | (c', vs') :: rest =>
    if c' = c then (c, vs) :: rest
    else (c', vs') :: setBinding c vs rest

/-- Model of `VersionRegistry.get_versions`. -/
def getVersions (reg : Registry) (component : String) : List VersionEntry :=
  (reg.lookup component).getD []

/-- Model of `VersionRegistry.register` from `version_registry.py`. -/
def register (reg : Registry) (component version : String) (effective_at : Nat)
    (description : String) : Registry :=
  let entry : VersionEntry :=
    { component := component, version := version
      effective_at := effective_at, description := description }
  setBinding component (insertByEffective entry (getVersions reg component)) reg

/-- Model of `VersionResolver.resolve` from
`src/core/change_control/version_resolver.py`: the last entry of the
sorted list whose `effective_at` is at or before the timestamp. -/
def resolve (reg : Registry) (component : String) (timestamp : Nat) :
    Option VersionEntry :=
  let versions := getVersions reg component
  if versions = [] then none
  else
    let active_versions := versions.filter fun v => v.effective_at ≤ timestamp
    if active_versions = [] then none
    else active_versions.getLast?

/-- Registries reachable from the empty registry by `register` calls. -/
inductive Reachable : Registry → Prop where
  | init : Reachable []
  | step {reg : Registry} (c v : String) (t : Nat) (d : String) :
      Reachable reg → Reachable (register reg c v t d)

end ChangeControl

/-! ## Invariants and concrete instances referenced by the theorems -/

/-- Chain well-formedness of a ledger suffix given the expected previous
header hash: each entry stores the hash of its own content, links to the
previous header hash, and stores the hash of its canonical header. -/
def WORMLedger.ChainOk (h : String → String) : String → List LedgerEntry → Prop
  | _, [] => True
  | prev, e :: rest =>
    e.content_hash = h e.content ∧
    e.previous_entry_hash = prev ∧
    e.entry_header_hash = h (headerCanonical e.sequence_number e.entry_type
      e.content_hash e.written_at e.previous_entry_hash) ∧
    WORMLedger.ChainOk h e.entry_header_hash rest

/-- The header hash of the last entry of a suffix, defaulting to the
expected previous hash when the suffix is empty. -/
def WORMLedger.lastHeader (p : String) : List LedgerEntry → String
  | [] => p
  | e :: rest => WORMLedger.lastHeader e.entry_header_hash rest

/-- Ledger invariant established by `append`: the chain is well formed
from the genesis zeros, the next sequence number tracks the length, and
entry `i` carries sequence number `i + 1`. -/
def WORMLedger.Inv (h : String → String) (l : WORMLedger) : Prop :=
  WORMLedger.ChainOk h zeros64 l.entries ∧
  l.next_sequence = l.entries.length + 1 ∧
  ∀ i (hi : i < l.entries.length), (l.entries[i]).sequence_number = i + 1

/-- Evidence-log invariant established by `append`: the next sequence
number tracks the length, the cached `last_produced_at` is the
`produced_at` of the last stored event, and the cached id set contains
exactly the ids of the stored events. -/
def EvidenceLog.Inv (l : EvidenceLog) : Prop :=
  l.next_sequence = l.events.length + 1 ∧
  l.last_produced_at = (l.events.getLast?).map (fun p => p.2.produced_at) ∧
  ∀ id, id ∈ l.event_ids ↔ ∃ p ∈ l.events, p.2.event_id = id

/-- Registry invariant maintained by `register`: every entry sits under
its own component and every per-component list is sorted by
`effective_at`. -/
def ChangeControl.RegInv (reg : ChangeControl.Registry) : Prop :=
  ∀ p ∈ reg, (∀ e ∈ p.2, e.component = p.1) ∧
    List.Pairwise (fun a b : ChangeControl.VersionEntry =>
      a.effective_at ≤ b.effective_at) p.2

/-- Concrete event used by the C10 witness. -/
def c10Event : Event :=
  [("source_event_id", Value.vstr "evt-1"), ("amount", Value.vint 100)]

/-- Concrete registry used by the C8 witness: two versions of one
component (registered out of effective order is equally allowed) and one
version of another. -/
def c8Reg : ChangeControl.Registry :=
  ChangeControl.register
    (ChangeControl.register
      (ChangeControl.register [] "normalizer" "2.0.0" 20 "")
      "normalizer" "1.0.0" 10 "")
    "adapter" "0.9.0" 5 ""

/-- The entry the C8 witness expects `resolve` to pick at timestamp 15. -/
def c8Entry : ChangeControl.VersionEntry :=
  { component := "normalizer", version := "1.0.0", effective_at := 10
    description := "" }

/-- An evidence event whose `caused_by` names an id never logged (C5). -/
def c5Ghost : EvidenceEvent :=
  { event_id := "evt-bad", event_type := .INGEST_RECEIVED
    produced_at := "2026-01-01T00:00:00Z", payload := []
    caused_by := ["ghost-id"] }

/-- A well-formed first evidence event (C5). -/
def c5Good : EvidenceEvent :=
  { event_id := "evt-1", event_type := .INGEST_RECEIVED
    produced_at := "2026-01-01T00:00:00Z", payload := [], caused_by := [] }

/-- First of the two C9 events sharing one `event_id`. -/
def c9EventA : EvidenceEvent :=
  { event_id := "dup", event_type := .INGEST_RECEIVED
    produced_at := "2026-01-01T00:00:00Z", payload := [], caused_by := [] }

/-- Second of the two C9 events sharing one `event_id`. -/
def c9EventB : EvidenceEvent :=
  { event_id := "dup", event_type := .AUDIT_CHECKPOINT
    produced_at := "2026-01-01T00:00:01Z", payload := [], caused_by := [] }

/-- The log obtained by appending `c9EventA` to the empty evidence log. -/
def c9Log1 : EvidenceLog :=
  match EvidenceLog.init.append c9EventA with
  | .ok p => p.2
  | .error _ => EvidenceLog.init

/-- Retention policy shared by the C1 witness appends. -/
def c1Retention : RetentionPolicy :=
  { retention_period := "P1Y", immutable_until := "2027-01-01T00:00:00Z" }

/-- A concrete two-entry ledger for the C1 witness, built over the
identity as the (injective) hash parameter. -/
def c1Ledger : WORMLedger :=
  (WORMLedger.append id
    (WORMLedger.append id WORMLedger.init .EVIDENCE_SNAPSHOT "payload-one"
      "2026-01-01T00:00:00Z" c1Retention).2
    .EVIDENCE_SNAPSHOT "payload-two" "2026-01-02T00:00:00Z" c1Retention).2

/-- The event stored under key `key-1` in the C3 counterexample: its
`source_event_id` is the empty string. -/
def c3Stored : Event :=
  [("event_id", Value.vstr "E1"), ("source_event_id", Value.vstr ""),
   ("amount", Value.vint 100)]

/-- The C3 counterexample store. -/
def c3Existing : List (String × Event) :=
  [("key-1", c3Stored)]

/-- The incoming C3 counterexample event: a fresh key but the same
(empty-string) `source_event_id` as the stored event. -/
def c3Event : Event :=
  [("source_event_id", Value.vstr ""), ("amount", Value.vint 200)]

/-- Stored event for the C3 amended witness. -/
def c3wStored : Event :=
  [("event_id", Value.vstr "E9"), ("source_event_id", Value.vstr "SRC-9")]

/-- Incoming event for the C3 amended witness: new key, same non-empty
`source_event_id`. -/
def c3wEvent : Event :=
  [("source_event_id", Value.vstr "SRC-9"), ("amount", Value.vint 7)]

/-- The C4 counterexample events: equal `external_reference`, and
`source_event_id` values that differ only by trailing whitespace, which
the generator's normalisation strips. -/
def c4e1 : Event :=
  [("source_event_id", Value.vstr "TXN-1"),
   ("external_reference", Value.vstr "REF12345")]

/-- Second C4 counterexample event (trailing blank in the id). -/
def c4e2 : Event :=
  [("source_event_id", Value.vstr "TXN-1 "),
   ("external_reference", Value.vstr "REF12345")]

/-- First C4 amended-witness event. -/
def c4w1 : Event := [("source_event_id", Value.vstr "A")]

/-- Second C4 amended-witness event. -/
def c4w2 : Event := [("source_event_id", Value.vstr "B")]

/-- Model of `"|".join` on character lists, the shape used to reason about
`joinBar`. -/
def joinBarChars : List (List Char) → List Char
  | [] => []
  | [x] => x
  | x :: y :: xs => x ++ '|' :: joinBarChars (y :: xs)

/-- The C6 counterexample machine: two transitions whose targets are the
distinct plausible terminal states REFUNDED and SETTLED. -/
def c6Machine : MoneyState.MoneyStateMachine :=
  { transitions :=
    [ { from_state := "SETTLED", to_state := "REFUNDED"
        required_evidence := ["REFUND_CONFIRMATION"], forbidden_evidence := [] }
    , { from_state := "IN_TRANSIT", to_state := "SETTLED"
        required_evidence := ["SETTLEMENT_CONFIRMATION"], forbidden_evidence := [] } ] }

/-- The C6 counterexample events: a refund confirmation and a settlement
confirmation. -/
def c6Events : List Event :=
  [ [("event_id", Value.vstr "e1"), ("event_type", Value.vstr "refund_confirmed"),
     ("timestamp", Value.vstr "2026-01-01T00:00:00Z")]
  , [("event_id", Value.vstr "e2"), ("event_type", Value.vstr "settlement_confirmed"),
     ("timestamp", Value.vstr "2026-01-02T00:00:00Z")] ]

/-- The C6 amended-witness machine: transitions to the conflicting
terminal states SETTLED and FAILED. -/
def c6wMachine : MoneyState.MoneyStateMachine :=
  { transitions :=
    [ { from_state := "IN_TRANSIT", to_state := "SETTLED"
        required_evidence := ["SEQUENCE_OBSERVED"], forbidden_evidence := [] }
    , { from_state := "IN_TRANSIT", to_state := "FAILED"
        required_evidence := ["TIMEOUT_EXCEEDED"], forbidden_evidence := [] } ] }

/-- The C6 amended-witness events (a timeout observation). -/
def c6wEvents : List Event :=
  [[("event_id", Value.vstr "e3"), ("event_type", Value.vstr "timeout_exceeded")]]

/-- The C6 amended-witness correlation links (a SEQUENCE link). -/
def c6wLinks : List Event :=
  [[("link_id", Value.vstr "l1"), ("link_type", Value.vstr "SEQUENCE")]]

/-! ## Shared lemmas about the dict model -/

theorem lookup_filter_self (e : Event) (f : String) :
    List.lookup f (e.filter fun p => p.1 ≠ f) = none := by
  induction e with
  | nil => rfl
  | cons p e ih =>
    by_cases hp : p.1 = f
    · simpa [List.filter_cons, hp] using ih
    · have hb : (f == p.1) = false := by
        simp [Ne.symm hp]
      simp [List.filter_cons, hp, List.lookup, hb, ih]
      exact fun a b _ hane => Ne.symm hane

theorem lookup_append_single_ne (l : Event) (f : String) (v : Value) (g : String)
    (h : g ≠ f) : List.lookup g (l ++ [(f, v)]) = List.lookup g l := by
  induction l with
  | nil =>
    have hb : (g == f) = false := by simp [h]
    simp [List.lookup, hb]
  | cons p l ih =>
    by_cases hp : g = p.1
    · simp [List.lookup, hp]
    · have hb : (g == p.1) = false := by simp [hp]
      simp [List.lookup, hb, ih]

/-! ## Claim theorems -/

/-- C7: `AlertBuilder.build` emits exactly one alert classified
CRITICAL → INSTITUTIONAL_BREACH, HIGH → RISK_ESCALATION,
MEDIUM → EARLY_WARNING, and no alert at all for LOW. -/
theorem C7_alert_type_per_severity (sha : String → String)
    (aggregate : Risk.RiskAggregate) (alert_version : String)
    (raised_at : Risk.RaisedAt) :
    (Risk.AlertBuilder.build sha aggregate alert_version raised_at).map
        (·.alert_type) =
      match aggregate.overall_risk_level with
      | .CRITICAL => [.INSTITUTIONAL_BREACH]
      | .HIGH => [.RISK_ESCALATION]
      | .MEDIUM => [.EARLY_WARNING]
      | .LOW => [] := by
  obtain ⟨lvl, aid, drv, prof⟩ := aggregate
  cases lvl <;>
    simp [Risk.AlertBuilder.build, Risk.AlertBuilder.classifyAlertType,
      Risk.AlertBuilder.buildAlert]

theorem pyGet_setField_vnull (e : Event) (f g : String) :
    pyGet (IdempotencyKeyGenerator.setField e f .vnull) g =
      pyGet (IdempotencyKeyGenerator.removeField e f) g := by
  unfold IdempotencyKeyGenerator.setField
  by_cases hg : g = f
  · subst hg
    unfold pyGet
    rw [show IdempotencyKeyGenerator.removeField e g =
      e.filter (fun p => p.1 ≠ g) from rfl]
    have h1 : List.lookup g (e.filter (fun p => p.1 ≠ g) ++ [(g, Value.vnull)]) =
        some Value.vnull := by
      induction e with
      | nil => simp [List.lookup]
      | cons p e ih =>
        by_cases hp : p.1 = g
        · simpa [List.filter_cons, hp] using ih
        · have hb : (g == p.1) = false := by simp [Ne.symm hp]
          simp only [decide_not] at ih
          simp [List.filter_cons, hp, List.lookup, hb, ih]
    rw [h1, lookup_filter_self]
  · unfold pyGet
    rw [lookup_append_single_ne _ _ _ _ hg]

/-- C10: a key field set to `None` and the same field absent produce the
same idempotency key — the generator simply omits the field from the
hashed string in both cases. -/
theorem C10_null_field_equals_missing_field (h : String → String)
    (version : String) (e : Event) (f : String)
    (_hf : f ∈ IdempotencyKeyGenerator.KEY_FIELDS_PRIORITY) :
    IdempotencyKeyGenerator.generate h version
        (IdempotencyKeyGenerator.setField e f .vnull) =
      IdempotencyKeyGenerator.generate h version
        (IdempotencyKeyGenerator.removeField e f) := by
  unfold IdempotencyKeyGenerator.generate IdempotencyKeyGenerator.keyString
  have hc : IdempotencyKeyGenerator.keyComponents
      (IdempotencyKeyGenerator.setField e f .vnull) =
      IdempotencyKeyGenerator.keyComponents
        (IdempotencyKeyGenerator.removeField e f) := by
    unfold IdempotencyKeyGenerator.keyComponents
    exact List.filterMap_congr fun g _ => by rw [pyGet_setField_vnull]
  rw [hc]

/-- Witness for C10 at the field `amount` of a concrete event. -/
theorem C10_null_field_equals_missing_field_witness :
    "amount" ∈ IdempotencyKeyGenerator.KEY_FIELDS_PRIORITY ∧
      IdempotencyKeyGenerator.generate id "1.0.0"
          (IdempotencyKeyGenerator.setField c10Event "amount" .vnull) =
        IdempotencyKeyGenerator.generate id "1.0.0"
          (IdempotencyKeyGenerator.removeField c10Event "amount") :=
  ⟨by decide, C10_null_field_equals_missing_field id "1.0.0" c10Event "amount" (by decide)⟩

theorem mem_insertByEffective {a x : ChangeControl.VersionEntry}
    {l : List ChangeControl.VersionEntry} :
    x ∈ ChangeControl.insertByEffective a l ↔ x = a ∨ x ∈ l := by
  induction l with
  | nil => simp [ChangeControl.insertByEffective]
  | cons b l ih =>
    by_cases hab : a.effective_at < b.effective_at
    · simp [ChangeControl.insertByEffective, hab]
    · simp [ChangeControl.insertByEffective, hab, ih]
      tauto

theorem pairwise_insertByEffective {a : ChangeControl.VersionEntry}
    {l : List ChangeControl.VersionEntry}
    (hl : List.Pairwise (fun x y : ChangeControl.VersionEntry =>
      x.effective_at ≤ y.effective_at) l) :
    List.Pairwise (fun x y : ChangeControl.VersionEntry =>
      x.effective_at ≤ y.effective_at) (ChangeControl.insertByEffective a l) := by
  induction l with
  | nil => simp [ChangeControl.insertByEffective]
  | cons b l ih =>
    rcases List.pairwise_cons.mp hl with ⟨hb, hl'⟩
    by_cases hab : a.effective_at < b.effective_at
    · rw [ChangeControl.insertByEffective, if_pos hab]
      refine List.pairwise_cons.mpr ⟨?_, hl⟩
      intro x hx
      rcases List.mem_cons.mp hx with hx | hx
      · exact hx ▸ le_of_lt hab
      · exact le_trans (le_of_lt hab) (hb x hx)
    · rw [ChangeControl.insertByEffective, if_neg hab]
      refine List.pairwise_cons.mpr ⟨?_, ih hl'⟩
      intro x hx
      rcases mem_insertByEffective.mp hx with hx | hx
      · exact hx ▸ le_of_not_lt hab
      · exact hb x hx

theorem mem_setBinding {c : String} {vs : List ChangeControl.VersionEntry}
    {reg : ChangeControl.Registry} {p : String × List ChangeControl.VersionEntry}
    (hp : p ∈ ChangeControl.setBinding c vs reg) : p = (c, vs) ∨ p ∈ reg := by
  induction reg with
  | nil => simpa [ChangeControl.setBinding] using hp
  | cons q reg ih =>
    obtain ⟨q1, q2⟩ := q
    by_cases hq : q1 = c
    · rw [show ChangeControl.setBinding c vs ((q1, q2) :: reg) = (c, vs) :: reg from by
        simp [ChangeControl.setBinding, hq]] at hp
      rcases List.mem_cons.mp hp with hp | hp
      · exact Or.inl hp
      · exact Or.inr (List.mem_cons_of_mem _ hp)
    · rw [show ChangeControl.setBinding c vs ((q1, q2) :: reg) =
        (q1, q2) :: ChangeControl.setBinding c vs reg from by
          simp [ChangeControl.setBinding, hq]] at hp
      rcases List.mem_cons.mp hp with hp | hp
      · exact Or.inr (hp ▸ List.mem_cons_self _ reg)
      · rcases ih hp with hne | hne
        · exact Or.inl hne
        · exact Or.inr (List.mem_cons_of_mem _ hne)

theorem mem_of_lookup_eq_some {reg : ChangeControl.Registry} {c : String}
    {vs : List ChangeControl.VersionEntry}
    (h : List.lookup c reg = some vs) : (c, vs) ∈ reg := by
  induction reg with
  | nil => simp [List.lookup] at h
  | cons q reg ih =>
    by_cases hq : c = q.1
    · have hb : (c == q.1) = true := by simp [hq]
      rw [List.lookup, hb] at h
      simp only [Option.some.injEq] at h
      have : (c, vs) = (q.1, q.2) := by rw [hq, h]
      exact this ▸ List.mem_cons_self _ _
    · have hb : (c == q.1) = false := by simp [hq]
      rw [List.lookup, hb] at h
      exact List.mem_cons_of_mem _ (ih h)

theorem reginv_register {reg : ChangeControl.Registry}
    (inv : ChangeControl.RegInv reg) (c v : String) (t : Nat) (d : String) :
    ChangeControl.RegInv (ChangeControl.register reg c v t d) := by
  intro p hp
  rcases mem_setBinding hp with hpe | hpe
  · subst hpe
    have hold : (∀ e ∈ ChangeControl.getVersions reg c, e.component = c) ∧
        List.Pairwise (fun x y : ChangeControl.VersionEntry =>
          x.effective_at ≤ y.effective_at) (ChangeControl.getVersions reg c) := by
      unfold ChangeControl.getVersions
      cases hlk : List.lookup c reg with
      | none => simp
      | some vs =>
        have := inv (c, vs) (mem_of_lookup_eq_some hlk)
        simpa using this
    constructor
    · intro e he
      rcases mem_insertByEffective.mp he with he | he
      · simp [he]
      · exact hold.1 e he
    · exact pairwise_insertByEffective hold.2
  · exact inv p hpe

theorem reginv_of_reachable {reg : ChangeControl.Registry}
    (h : ChangeControl.Reachable reg) : ChangeControl.RegInv reg := by
  induction h with
  | init => intro p hp; simp at hp
  | step c v t d _ ih => exact reginv_register ih c v t d

theorem effective_le_getLast_of_pairwise :
    ∀ {l : List ChangeControl.VersionEntry},
    List.Pairwise (fun x y : ChangeControl.VersionEntry =>
      x.effective_at ≤ y.effective_at) l →
    ∀ x ∈ l, ∀ e, l.getLast? = some e → x.effective_at ≤ e.effective_at := by
  intro l
  induction l with
  | nil => intro _ x hx; simp at hx
  | cons a l ih =>
    intro hp x hx e he
    rcases List.pairwise_cons.mp hp with ⟨ha, hl⟩
    cases l with
    | nil =>
      simp at he hx
      simp [hx, he]
    | cons b l' =>
      rw [List.getLast?_cons_cons] at he
      rcases List.mem_cons.mp hx with hx | hx
      · exact hx ▸ ha e (List.mem_of_mem_getLast? he)
      · exact ih hl x hx e he

/-- C8: for every registry built by `register` calls in any order,
`resolve c ts` returns an entry for `c` with `effective_at ≤ ts` that is
maximal among such entries, and returns `none` exactly when no entry for
`c` has `effective_at ≤ ts`. -/
theorem C8_resolve_latest_effective (reg : ChangeControl.Registry)
    (hreach : ChangeControl.Reachable reg) (c : String) (ts : Nat) :
    (∀ e, ChangeControl.resolve reg c ts = some e →
        e ∈ ChangeControl.getVersions reg c ∧ e.component = c ∧
        e.effective_at ≤ ts ∧
        ∀ e' ∈ ChangeControl.getVersions reg c, e'.effective_at ≤ ts →
          e'.effective_at ≤ e.effective_at)
    ∧ (ChangeControl.resolve reg c ts = none ↔
        ∀ e ∈ ChangeControl.getVersions reg c, ¬ e.effective_at ≤ ts) := by
  have inv := reginv_of_reachable hreach
  have hfacts : (∀ e ∈ ChangeControl.getVersions reg c, e.component = c) ∧
      List.Pairwise (fun x y : ChangeControl.VersionEntry =>
        x.effective_at ≤ y.effective_at) (ChangeControl.getVersions reg c) := by
    unfold ChangeControl.getVersions
    cases hlk : List.lookup c reg with
    | none => simp
    | some vs => simpa using inv (c, vs) (mem_of_lookup_eq_some hlk)
  set versions := ChangeControl.getVersions reg c with hv
  by_cases hnil : versions = []
  · rw [ChangeControl.resolve]
    simp only [← hv, hnil]
    constructor
    · intro e he
      simp at he
    · simp
  · set active := versions.filter (fun v => v.effective_at ≤ ts) with hact
    have hres : ChangeControl.resolve reg c ts =
        (if active = [] then none else active.getLast?) := by
      rw [ChangeControl.resolve]
      simp only [← hv, ← hact, if_neg hnil]
    by_cases hanil : active = []
    · rw [hres, if_pos hanil]
      constructor
      · intro e he
        simp at he
      · simp only [true_iff]
        intro e he hle
        have : e ∈ active := List.mem_filter.mpr ⟨he, by simpa using hle⟩
        simp [hanil] at this
    · rw [hres, if_neg hanil]
      constructor
      · intro e he
        have hmem : e ∈ active := List.mem_of_mem_getLast? he
        have hspair : List.Pairwise (fun x y : ChangeControl.VersionEntry =>
            x.effective_at ≤ y.effective_at) active :=
          hfacts.2.filter _
        refine ⟨List.mem_of_mem_filter hmem, hfacts.1 e (List.mem_of_mem_filter hmem),
          by simpa using List.of_mem_filter hmem, ?_⟩
        intro e' he' hle'
        have : e' ∈ active := List.mem_filter.mpr ⟨he', by simpa using hle'⟩
        exact effective_le_getLast_of_pairwise hspair e' this e he
      · constructor
        · intro hnone
          rw [List.getLast?_eq_none_iff] at hnone
          exact absurd hnone hanil
        · intro hall
          exfalso
          obtain ⟨x, hx⟩ := List.exists_mem_of_ne_nil active hanil
          exact hall x (List.mem_of_mem_filter hx)
            (by simpa using List.of_mem_filter hx)

theorem lastHeader_eq_getLast (p : String) (es : List LedgerEntry) :
    WORMLedger.lastHeader p es =
      ((es.getLast?).map (·.entry_header_hash)).getD p := by
  induction es generalizing p with
  | nil => rfl
  | cons e rest ih =>
    rw [WORMLedger.lastHeader, ih]
    cases rest with
    | nil => rfl
    | cons f rest' =>
      rw [List.getLast?_cons_cons]
      cases hgl : (f :: rest').getLast? with
      | none => exact absurd (List.getLast?_eq_none_iff.mp hgl) (by simp)
      | some x => simp

theorem chainOk_append {h : String → String} {es : List LedgerEntry}
    {e : LedgerEntry} :
    ∀ {p : String}, WORMLedger.ChainOk h p es →
    e.content_hash = h e.content →
    e.previous_entry_hash = WORMLedger.lastHeader p es →
    e.entry_header_hash = h (headerCanonical e.sequence_number e.entry_type
      e.content_hash e.written_at e.previous_entry_hash) →
    WORMLedger.ChainOk h p (es ++ [e]) := by
  induction es with
  | nil =>
    intro p _ hc hp hh
    exact ⟨hc, hp, hh, trivial⟩
  | cons f rest ih =>
    intro p hok hc hp hh
    obtain ⟨h1, h2, h3, h4⟩ := hok
    exact ⟨h1, h2, h3, ih h4 hc hp hh⟩

theorem worm_inv_init (h : String → String) : WORMLedger.Inv h WORMLedger.init := by
  refine ⟨trivial, rfl, ?_⟩
  intro i hi
  simp [WORMLedger.init] at hi

theorem worm_inv_append {h : String → String} {l : WORMLedger}
    (hInv : WORMLedger.Inv h l) (t : LedgerEntryType) (c w : String)
    (rp : RetentionPolicy) :
    WORMLedger.Inv h (WORMLedger.append h l t c w rp).2 := by
  obtain ⟨hok, hseq, hnum⟩ := hInv
  have hprev : (if l.next_sequence = 1 then zeros64
      else ((l.entries.getLast?).map (·.entry_header_hash)).getD zeros64) =
      WORMLedger.lastHeader zeros64 l.entries := by
    rw [lastHeader_eq_getLast]
    by_cases hone : l.next_sequence = 1
    · have : l.entries = [] := by
        rw [hone] at hseq
        exact List.length_eq_zero.mp (by omega)
      rw [if_pos hone, this]
      rfl
    · rw [if_neg hone]
  have hent : (WORMLedger.append h l t c w rp).2.entries =
      l.entries ++ [(WORMLedger.append h l t c w rp).1] := rfl
  refine ⟨?_, ?_, ?_⟩
  · rw [hent]
    refine chainOk_append hok rfl ?_ rfl
    exact hprev
  · show l.next_sequence + 1 = _
    rw [hent, List.length_append]
    simp [hseq]
  · intro i hi
    rw [hent] at hi
    rw [List.length_append, List.length_singleton] at hi
    by_cases hilt : i < l.entries.length
    · have hgoal : ((WORMLedger.append h l t c w rp).2.entries)[i] =
          l.entries[i] :=
        (List.getElem_of_eq hent _).trans (List.getElem_append_left hilt)
      rw [hgoal]
      exact hnum i hilt
    · have hieq : i = l.entries.length := by omega
      have hgoal : ((WORMLedger.append h l t c w rp).2.entries)[i] =
          (WORMLedger.append h l t c w rp).1 :=
        (List.getElem_of_eq hent _).trans
          (by rw [List.getElem_append_right (by omega)]; simp [hieq])
      rw [hgoal]
      show l.next_sequence = i + 1
      omega

theorem worm_inv_of_reachable {h : String → String} {l : WORMLedger}
    (hr : WORMLedger.Reachable h l) : WORMLedger.Inv h l := by
  induction hr with
  | init => exact worm_inv_init h
  | step t c w rp _ ih => exact worm_inv_append ih t c w rp

theorem verifyFrom_ok {h : String → String} :
    ∀ {es : List LedgerEntry} {p : String}, WORMLedger.ChainOk h p es →
    WORMLedger.verifyFrom h p es = (true, none) := by
  intro es
  induction es with
  | nil => intro p _; rfl
  | cons e rest ih =>
    intro p hok
    obtain ⟨h1, h2, h3, h4⟩ := hok
    rw [WORMLedger.verifyFrom, if_neg (by simp [h1]), if_neg (by simp [h2]),
      if_neg (by simp [h3])]
    exact ih h4

theorem verifyFrom_mutate {h : String → String} (hinj : Function.Injective h) :
    ∀ {es : List LedgerEntry} {p : String}, WORMLedger.ChainOk h p es →
    ∀ (i : Nat) (hi : i < es.length) (c : String),
    c ≠ (es[i]).content →
    WORMLedger.verifyFrom h p (es.modify (fun e => { e with content := c }) i) =
      (false, some ("Content hash mismatch at sequence " ++
        toString (es[i]).sequence_number)) := by
  intro es
  induction es with
  | nil => intro p _ i hi; simp at hi
  | cons e rest ih =>
    intro p hok i hi c hc
    obtain ⟨h1, h2, h3, h4⟩ := hok
    cases i with
    | zero =>
      show WORMLedger.verifyFrom h p ({ e with content := c } :: rest) = _
      rw [WORMLedger.verifyFrom]
      have hne : h c ≠ e.content_hash := by
        rw [h1]
        intro heq
        exact hc (hinj heq)
      rw [if_pos (by simpa using hne)]
      rfl
    | succ j =>
      show WORMLedger.verifyFrom h p
        (e :: rest.modify (fun e => { e with content := c }) j) = _
      rw [WORMLedger.verifyFrom, if_neg (by simp [h1]), if_neg (by simp [h2]),
        if_neg (by simp [h3])]
      exact ih h4 j (by simpa using hi) c hc

/-- C1: on any ledger built by `append` calls, `verify_chain` returns
`(true, none)`; entry `i` carries sequence number `i + 1`; and replacing
the content bytes of the entry with sequence number `i + 1` by different
bytes makes `verify_chain` return `false` with the reason
`Content hash mismatch at sequence i + 1`.  `h` is the SHA-256 digest,
assumed collision-free. -/
theorem C1_chain_integrity_and_tamper_detection (h : String → String)
    (hinj : Function.Injective h) (l : WORMLedger)
    (hl : WORMLedger.Reachable h l) :
    WORMLedger.verify_chain h l = (true, none)
    ∧ (∀ i (hi : i < l.entries.length),
        (l.entries[i]).sequence_number = i + 1)
    ∧ ∀ i (hi : i < l.entries.length) (c : String),
        c ≠ (l.entries[i]).content →
        WORMLedger.verify_chain h (WORMLedger.mutateContent l i c) =
          (false, some ("Content hash mismatch at sequence " ++ toString (i + 1))) := by
  obtain ⟨hok, hseq, hnum⟩ := worm_inv_of_reachable hl
  refine ⟨verifyFrom_ok hok, hnum, ?_⟩
  intro i hi c hc
  have := verifyFrom_mutate hinj hok i hi c hc
  rw [WORMLedger.verify_chain]
  show WORMLedger.verifyFrom h zeros64 (l.entries.modify _ i) = _
  rw [this, hnum i hi]

/-- Witness for C1: a concrete two-entry ledger verifies clean, and
tampering with the content of sequence number 2 is reported naming
sequence 2. -/
theorem C1_chain_integrity_and_tamper_detection_witness :
    WORMLedger.verify_chain id c1Ledger = (true, none) ∧
      WORMLedger.verify_chain id (WORMLedger.mutateContent c1Ledger 1 "tampered") =
        (false, some "Content hash mismatch at sequence 2") := by
  have hreach : WORMLedger.Reachable id c1Ledger :=
    WORMLedger.Reachable.step _ _ _ _
      (WORMLedger.Reachable.step _ _ _ _ WORMLedger.Reachable.init)
  have h := C1_chain_integrity_and_tamper_detection id (fun _ _ hab => hab)
    c1Ledger hreach
  refine ⟨h.1, ?_⟩
  have h2 := h.2.2 1 (by decide) "tampered" (by decide)
  rw [show ("Content hash mismatch at sequence " ++ toString (1 + 1)) =
    "Content hash mismatch at sequence 2" from by decide] at h2
  exact h2

theorem mem_addId {ids : List String} {a x : String} :
    x ∈ EvidenceLog.addId ids a ↔ x ∈ ids ∨ x = a := by
  unfold EvidenceLog.addId
  by_cases h : a ∈ ids
  · rw [if_pos h]
    constructor
    · exact Or.inl
    · rintro (hx | hx)
      · exact hx
      · exact hx ▸ h
  · rw [if_neg h]
    simp

theorem evidence_inv_init : EvidenceLog.Inv EvidenceLog.init := by
  refine ⟨rfl, rfl, ?_⟩
  intro id
  simp [EvidenceLog.init]

theorem evidence_append_ok {l : EvidenceLog} (hInv : EvidenceLog.Inv l)
    (e : EvidenceEvent)
    (hmono : ∀ p, l.events.getLast? = some p →
      ¬ strLt e.produced_at p.2.produced_at = true)
    (hcb : ∀ c ∈ e.caused_by, ∃ q ∈ l.events, q.2.event_id = c) :
    l.append e = .ok (l.events.length + 1,
      { events := l.events ++ [(l.events.length + 1, e)]
        next_sequence := l.events.length + 2
        last_produced_at := some e.produced_at
        event_ids := EvidenceLog.addId l.event_ids e.event_id }) := by
  obtain ⟨hseq, hlast, hids⟩ := hInv
  have hcond : (match l.last_produced_at with
      | some lp => strLt e.produced_at lp
      | none => false) = false := by
    rw [hlast]
    cases hg : l.events.getLast? with
    | none => rfl
    | some p => simpa using Bool.eq_false_iff.mpr (hmono p hg)
  have hfind : e.caused_by.find? (fun c => !(l.event_ids.contains c)) = none := by
    rw [List.find?_eq_none]
    intro c hc
    obtain ⟨q, hq, hqid⟩ := hcb c hc
    have hcm : c ∈ l.event_ids := (hids c).mpr ⟨q, hq, hqid⟩
    simp
    exact hcm
  rw [EvidenceLog.append, if_neg (by simp [hcond]), hfind]
  simp only [hseq]

theorem evidence_append_error {l : EvidenceLog} (hInv : EvidenceLog.Inv l)
    (e : EvidenceEvent)
    (hviol : (∃ p, l.events.getLast? = some p ∧
        strLt e.produced_at p.2.produced_at = true) ∨
      ∃ c ∈ e.caused_by, ∀ q ∈ l.events, q.2.event_id ≠ c) :
    ∃ msg, l.append e = .error msg := by
  obtain ⟨hseq, hlast, hids⟩ := hInv
  by_cases hcond : (match l.last_produced_at with
      | some lp => strLt e.produced_at lp
      | none => false) = true
  · exact ⟨_, by rw [EvidenceLog.append, if_pos hcond]⟩
  · rcases hviol with ⟨p, hp, hlt⟩ | ⟨c, hc, hnone⟩
    · exfalso
      apply hcond
      rw [hlast, hp]
      exact hlt
    · have hmem : c ∉ l.event_ids := by
        rw [hids c]
        rintro ⟨q, hq, hqid⟩
        exact hnone q hq hqid
      have hex : ∃ x ∈ e.caused_by, (!(l.event_ids.contains x)) = true := by
        refine ⟨c, hc, ?_⟩
        simp [List.elem_iff, hmem]
      have hsome := List.find?_isSome.mpr hex
      rw [EvidenceLog.append, if_neg (by simp [hcond])]
      cases hfind : e.caused_by.find? (fun c => !(l.event_ids.contains c)) with
      | none => rw [hfind] at hsome; simp at hsome
      | some c' => exact ⟨_, rfl⟩

theorem evidence_inv_step {l l' : EvidenceLog} {e : EvidenceEvent} {n : Nat}
    (hInv : EvidenceLog.Inv l) (h : l.append e = .ok (n, l')) :
    EvidenceLog.Inv l' := by
  rw [EvidenceLog.append] at h
  by_cases hcond : (match l.last_produced_at with
      | some lp => strLt e.produced_at lp
      | none => false) = true
  · rw [if_pos hcond] at h; exact absurd h (by simp)
  · rw [if_neg hcond] at h
    cases hfind : e.caused_by.find? (fun c => !(l.event_ids.contains c)) with
    | some c => rw [hfind] at h; exact absurd h (by simp)
    | none =>
      rw [hfind] at h
      simp only [Except.ok.injEq, Prod.mk.injEq] at h
      obtain ⟨hn, hl'⟩ := h
      obtain ⟨hseq, hlast, hids⟩ := hInv
      subst hl'
      refine ⟨by simp [hseq], by simp, ?_⟩
      intro id
      rw [mem_addId, hids id]
      constructor
      · rintro (⟨p, hp, hpid⟩ | hid)
        · exact ⟨p, List.mem_append_left _ hp, hpid⟩
        · exact ⟨(l.next_sequence, e), List.mem_append_right _ (by simp), by simp [hid]⟩
      · rintro ⟨p, hp, hpid⟩
        rcases List.mem_append.mp hp with hp | hp
        · exact Or.inl ⟨p, hp, hpid⟩
        · right
          simp only [List.mem_singleton] at hp
          rw [hp] at hpid
          exact hpid.symm

theorem evidence_inv_of_reachable {l : EvidenceLog} (h : EvidenceLog.Reachable l) :
    EvidenceLog.Inv l := by
  induction h with
  | init => exact evidence_inv_init
  | step _ hok ih => exact evidence_inv_step ih hok

/-- C5: `EvidenceLog.append` raises exactly when the event's
`produced_at` precedes the last appended event's or a `caused_by` id was
never appended; otherwise it succeeds, and the n-th successful append
returns sequence number n (the log length grows by one each time). -/
theorem C5_append_monotone_causal_dense (l : EvidenceLog)
    (hl : EvidenceLog.Reachable l) (e : EvidenceEvent) :
    ((∃ p, l.events.getLast? = some p ∧
        strLt e.produced_at p.2.produced_at = true) ∨
      (∃ c ∈ e.caused_by, ∀ q ∈ l.events, q.2.event_id ≠ c) →
        ∃ msg, l.append e = .error msg)
    ∧ ((∀ p, l.events.getLast? = some p →
          ¬ strLt e.produced_at p.2.produced_at = true) →
       (∀ c ∈ e.caused_by, ∃ q ∈ l.events, q.2.event_id = c) →
        ∃ l', l.append e = .ok (l.events.length + 1, l') ∧
          l'.events = l.events ++ [(l.events.length + 1, e)]) := by
  have hInv := evidence_inv_of_reachable hl
  constructor
  · exact evidence_append_error hInv e
  · intro hmono hcb
    exact ⟨_, evidence_append_ok hInv e hmono hcb, rfl⟩

/-- Witness for C5: on the empty log, an event citing a never-logged
`caused_by` id is rejected, while a well-formed event is accepted with
sequence number 1. -/
theorem C5_append_monotone_causal_dense_witness :
    (EvidenceLog.init.append c5Ghost).isOk = false ∧
      (EvidenceLog.init.append c5Good).toOption.map Prod.fst = some 1 := by
  obtain ⟨msg, hmsg⟩ :=
    (C5_append_monotone_causal_dense EvidenceLog.init .init c5Ghost).1
      (Or.inr ⟨"ghost-id", by decide, by intro q hq; simp [EvidenceLog.init] at hq⟩)
  obtain ⟨l', hok, _⟩ :=
    (C5_append_monotone_causal_dense EvidenceLog.init .init c5Good).2
      (by intro p hp; simp [EvidenceLog.init] at hp)
      (by intro c hc; simp [c5Good] at hc)
  rw [hmsg]
  rw [show EvidenceLog.init.events.length + 1 = 1 from rfl] at hok
  rw [hok]
  exact ⟨rfl, rfl⟩

/-- C9 counterexample: appending a second event that reuses the
`event_id` of an already-logged event succeeds, so the log holds two
events with the same id — the claim that such an append must not succeed
is false on the code. -/
theorem C9_counterexample_duplicate_id_accepted :
    (EvidenceLog.init.append c9EventA).toOption.map Prod.snd = some c9Log1 ∧
      c9EventB.event_id = c9EventA.event_id ∧
      (c9Log1.append c9EventB).isOk = true ∧
      ((c9Log1.append c9EventB).toOption.map
        (fun p => p.2.events.map (fun q => q.2.event_id))) =
        some ["dup", "dup"] := by
  refine ⟨rfl, rfl, rfl, rfl⟩

/-- C9 (amended): `append` does not enforce `event_id` uniqueness — when
the monotonicity and causality preconditions hold it succeeds even though
the event's id is already in the log, which afterwards stores at least
two events with that id.  Pairwise distinctness therefore holds only when
callers supply fresh ids. -/
theorem C9_amended_append_ignores_duplicate_ids (l : EvidenceLog)
    (hl : EvidenceLog.Reachable l) (e : EvidenceEvent)
    (hdup : ∃ p ∈ l.events, p.2.event_id = e.event_id)
    (hmono : ∀ p, l.events.getLast? = some p →
      ¬ strLt e.produced_at p.2.produced_at = true)
    (hcb : ∀ c ∈ e.caused_by, ∃ q ∈ l.events, q.2.event_id = c) :
    ∃ l', l.append e = .ok (l.events.length + 1, l') ∧
      2 ≤ (l'.events.filter fun q => q.2.event_id = e.event_id).length := by
  have hInv := evidence_inv_of_reachable hl
  refine ⟨_, evidence_append_ok hInv e hmono hcb, ?_⟩
  obtain ⟨p, hp, hpid⟩ := hdup
  have hmem : p ∈ l.events.filter (fun q => q.2.event_id = e.event_id) :=
    List.mem_filter.mpr ⟨hp, by simp [hpid]⟩
  have h1 : 1 ≤ (l.events.filter fun q => q.2.event_id = e.event_id).length :=
    List.length_pos.mpr (List.ne_nil_of_mem hmem)
  simp only [List.filter_append]
  rw [List.length_append]
  have h2 : (([(l.events.length + 1, e)]).filter
      fun q => q.2.event_id = e.event_id).length = 1 := by simp
  omega

/-- Witness for C9 (amended): the concrete duplicate append of the
counterexample, reached through the theorem. -/
theorem C9_amended_append_ignores_duplicate_ids_witness :
    (c9Log1.append c9EventB).isOk = true ∧
      ((c9Log1.append c9EventB).toOption.map
        (fun p => (p.2.events.filter
          fun q => q.2.event_id = c9EventB.event_id).length)).getD 0 ≥ 2 := by
  have hreach : EvidenceLog.Reachable c9Log1 :=
    EvidenceLog.Reachable.step .init
      (show EvidenceLog.init.append c9EventA = .ok (1, c9Log1) from rfl)
  obtain ⟨l', hok, hlen⟩ :=
    C9_amended_append_ignores_duplicate_ids c9Log1 hreach c9EventB
      (by decide)
      (by
        intro p hp
        have h0 : c9Log1.events.getLast? = some (1, c9EventA) := by decide
        rw [h0, Option.some.injEq] at hp
        subst hp
        decide)
      (by intro c hc; simp [c9EventB] at hc)
  rw [show c9Log1.events.length + 1 = 2 from rfl] at hok
  rw [hok]
  exact ⟨rfl, by simpa using hlen⟩

/-- Witness for C8: on a concrete registry with two effective versions of
`normalizer`, resolving at timestamp 15 picks the version effective at 10. -/
theorem C8_resolve_latest_effective_witness :
    ChangeControl.resolve c8Reg "normalizer" 15 = some c8Entry ∧
      c8Entry ∈ ChangeControl.getVersions c8Reg "normalizer" ∧
      c8Entry.component = "normalizer" ∧ c8Entry.effective_at ≤ 15 := by
  have hreach : ChangeControl.Reachable c8Reg :=
    ChangeControl.Reachable.step _ _ _ _
      (ChangeControl.Reachable.step _ _ _ _
        (ChangeControl.Reachable.step _ _ _ _ ChangeControl.Reachable.init))
  have hres : ChangeControl.resolve c8Reg "normalizer" 15 = some c8Entry := by decide
  have h := (C8_resolve_latest_effective c8Reg hreach "normalizer" 15).1 c8Entry hres
  exact ⟨hres, h.1, h.2.1, h.2.2.1⟩

/-- C2: `guard` executes the thunk exactly when the decision is
`ACCEPT_FIRST`, which holds exactly when no record with the key is in the
idempotency store at call time; every invocation, whatever the decision,
appends exactly one record to the store and one entry to the WORM ledger. -/
theorem C2_guard_executes_iff_first_and_always_logs {T : Type}
    (g : Guardian.GuardianState) (k : Guardian.IdempotencyKey)
    (now rid ref : String) (operation : Unit → T) :
    ((Guardian.check g k now rid ref).1.decision = .ACCEPT_FIRST ↔
      ∀ r ∈ g.store, r.idempotency_key ≠ k.key)
    ∧ (Guardian.guard g k now rid ref operation).1 =
        (if (Guardian.check g k now rid ref).1.decision = .ACCEPT_FIRST then
          some (operation ()) else none)
    ∧ (Guardian.guard g k now rid ref operation).2 =
        (Guardian.check g k now rid ref).2
    ∧ (Guardian.check g k now rid ref).2.store =
        g.store ++ [(Guardian.check g k now rid ref).1.record]
    ∧ ∃ en, (Guardian.check g k now rid ref).2.ledger = g.ledger ++ [en] := by
  refine ⟨?_, ?_, ?_, ?_, ?_⟩
  · constructor
    · intro hdec r hr hkey
      have hfind : Guardian.find_by_key g.store k.key ≠ none := by
        intro hnone
        rw [Guardian.find_by_key, List.find?_eq_none] at hnone
        exact hnone r hr (by simp [hkey])
      obtain ⟨ex, hex⟩ := Option.ne_none_iff_exists'.mp hfind
      rw [Guardian.check] at hdec
      simp only [hex] at hdec
      by_cases hfp : Guardian.parseFingerprint ex.notes ≠ Guardian.buildFingerprint k <;>
        simp [hfp] at hdec
    · intro hnone
      have hfind : Guardian.find_by_key g.store k.key = none := by
        rw [Guardian.find_by_key, List.find?_eq_none]
        intro r hr
        simp [hnone r hr]
      rw [Guardian.check]
      simp [hfind]
  · by_cases hd : (Guardian.check g k now rid ref).1.decision = .ACCEPT_FIRST <;>
      simp [Guardian.guard, Guardian.ExecutionGate.should_execute, hd]
  · by_cases hd : (Guardian.check g k now rid ref).1.decision = .ACCEPT_FIRST <;>
      simp [Guardian.guard, Guardian.ExecutionGate.should_execute, hd]
  · rfl
  · exact ⟨_, rfl⟩

/-- C3 counterexample: the stored and incoming events carry the same
(empty-string) `source_event_id` under different keys, yet the decider
returns a silent ACCEPT instead of FLAG_AMBIGUOUS, because the Python
truthiness test `if source_id:` skips the collision scan for the falsy
empty string. -/
theorem C3_counterexample_empty_source_id_accepted :
    List.lookup "key-2" c3Existing = none ∧
      ("key-1", c3Stored) ∈ c3Existing ∧
      pyGet c3Event "source_event_id" = some (Value.vstr "") ∧
      pyGet c3Stored "source_event_id" = pyGet c3Event "source_event_id" ∧
      (IdentityDecider.decide "key-2" c3Event c3Existing).decision = .ACCEPT := by
  refine ⟨rfl, by decide, rfl, rfl, rfl⟩

/-- C3 (amended): the decider accepts a fresh key with no shared
`source_event_id`; rejects an exact critical-field duplicate of the
stored event under the same key; flags a same-key partial match listing
the conflicting critical fields; and flags an identity collision on a
shared `source_event_id` provided that id is truthy (non-null, non-empty,
non-zero) — for a falsy id such as the empty string the scan is skipped. -/
theorem C3_amended_identity_decision_rules (k : String) (e : Event)
    (existing : List (String × Event)) :
    (existing.lookup k = none →
      (¬ ∃ s, pyGet e "source_event_id" = some s ∧
        ∃ p ∈ existing, pyGet p.2 "source_event_id" = some s) →
      (IdentityDecider.decide k e existing).decision = .ACCEPT)
    ∧ (∀ ex, existing.lookup k = some ex →
        IdentityDecider.findConflicts e ex = [] →
        (IdentityDecider.decide k e existing).decision = .REJECT_DUPLICATE)
    ∧ (∀ ex, existing.lookup k = some ex →
        IdentityDecider.findConflicts e ex ≠ [] →
        (IdentityDecider.decide k e existing).decision = .FLAG_AMBIGUOUS ∧
        (IdentityDecider.decide k e existing).conflicting_fields =
          IdentityDecider.findConflicts e ex)
    ∧ (existing.lookup k = none →
        truthy (pyGet e "source_event_id") = true →
        (∃ p ∈ existing, pyGet p.2 "source_event_id" = pyGet e "source_event_id") →
        (IdentityDecider.decide k e existing).decision = .FLAG_AMBIGUOUS) := by
  refine ⟨?_, ?_, ?_, ?_⟩
  · intro hlk hshare
    by_cases hnil : existing = []
    · rw [IdentityDecider.decide, if_pos hnil]
    · rw [IdentityDecider.decide, if_neg hnil, hlk]
      by_cases htr : truthy (pyGet e "source_event_id") = true
      · rw [if_pos htr]
        have hfind : existing.find?
            (fun p => pyGet p.2 "source_event_id" = pyGet e "source_event_id") = none := by
          rw [List.find?_eq_none]
          intro p hp
          simp only [decide_eq_true_eq]
          intro heq
          cases hv : pyGet e "source_event_id" with
          | none => rw [hv] at htr; simp [truthy] at htr
          | some s => exact hshare ⟨s, hv, p, hp, by rw [heq, hv]⟩
        rw [hfind]
      · rw [if_neg htr]
  · intro ex hlk hconf
    have hnil : existing ≠ [] := by
      intro hn
      rw [hn] at hlk
      simp [List.lookup] at hlk
    rw [IdentityDecider.decide, if_neg hnil, hlk]
    simp [hconf]
  · intro ex hlk hconf
    have hnil : existing ≠ [] := by
      intro hn
      rw [hn] at hlk
      simp [List.lookup] at hlk
    rw [IdentityDecider.decide, if_neg hnil, hlk]
    simp [hconf]
  · intro hlk htr hshare
    obtain ⟨p, hp, hpeq⟩ := hshare
    have hnil : existing ≠ [] := List.ne_nil_of_mem hp
    rw [IdentityDecider.decide, if_neg hnil, hlk, if_pos htr]
    have hsome : (existing.find? (fun p =>
        pyGet p.2 "source_event_id" = pyGet e "source_event_id")).isSome = true :=
      List.find?_isSome.mpr ⟨p, hp, decide_eq_true hpeq⟩
    cases hfind : existing.find?
        (fun p => pyGet p.2 "source_event_id" = pyGet e "source_event_id") with
    | none => rw [hfind] at hsome; simp at hsome
    | some q => rfl

/-- Witness for C3 (amended): a truthy shared `source_event_id` under a
fresh key is flagged as an identity collision. -/
theorem C3_amended_identity_decision_rules_witness :
    (IdentityDecider.decide "key-2" c3wEvent [("key-1", c3wStored)]).decision =
      .FLAG_AMBIGUOUS := by
  exact (C3_amended_identity_decision_rules "key-2" c3wEvent
    [("key-1", c3wStored)]).2.2.2 (by decide) (by decide)
    ⟨("key-1", c3wStored), by decide, by decide⟩

theorem two_mem_one_lt_length {α : Type} {a b : α} {l : List α}
    (ha : a ∈ l) (hb : b ∈ l) (hab : a ≠ b) : 1 < l.length := by
  cases l with
  | nil => simp at ha
  | cons x xs =>
    cases xs with
    | nil =>
      simp at ha hb
      exact absurd (ha.trans hb.symm) hab
    | cons y ys => simp

/-- C6 counterexample: with two satisfied transitions leading to the two
distinct plausible terminal states REFUNDED and SETTLED (and no
contradiction pre-check firing), `evaluate` returns REFUNDED — the first
matched transition — rather than AMBIGUOUS. -/
theorem C6_counterexample_two_terminals_not_ambiguous :
    ((MoneyState.possibleStates c6Machine.transitions
        (MoneyState.extractEvidence c6Events [])).map (·.1)) =
      ["REFUNDED", "SETTLED"] ∧
    ("REFUNDED" : String) ≠ "SETTLED" ∧
    (MoneyState.evaluate (fun s => s) c6Machine "flow-001" c6Events []
      "2026-01-03T00:00:00Z" "ptr-1").state = "REFUNDED" ∧
    (MoneyState.evaluate (fun s => s) c6Machine "flow-001" c6Events []
      "2026-01-03T00:00:00Z" "ptr-1").state ≠ "AMBIGUOUS" := by
  refine ⟨by decide, by decide, by decide, by decide⟩

/-- C6 (amended): `evaluate` returns AMBIGUOUS when the satisfied
transitions' target states contain both SETTLED and FAILED, or both
AUTHORIZED and FAILED (the only multi-state combinations the code treats
as conflicting); any other set of multiple plausible targets resolves to
the first highest-confidence transition. -/
theorem C6_amended_ambiguous_only_for_conflicting_pairs
    (md5 : String → String) (m : MoneyState.MoneyStateMachine)
    (flow_id : String) (events links : List Event)
    (evaluated_at evidence_pointer : String)
    (hnames :
      ("SETTLED" ∈ (MoneyState.possibleStates m.transitions
          (MoneyState.extractEvidence events links)).map (·.1) ∧
        "FAILED" ∈ (MoneyState.possibleStates m.transitions
          (MoneyState.extractEvidence events links)).map (·.1)) ∨
      ("AUTHORIZED" ∈ (MoneyState.possibleStates m.transitions
          (MoneyState.extractEvidence events links)).map (·.1) ∧
        "FAILED" ∈ (MoneyState.possibleStates m.transitions
          (MoneyState.extractEvidence events links)).map (·.1))) :
    (MoneyState.evaluate md5 m flow_id events links evaluated_at
      evidence_pointer).state = "AMBIGUOUS" := by
  show (MoneyState.determineState m.transitions
    (MoneyState.extractEvidence events links)).1 = "AMBIGUOUS"
  set avail := MoneyState.extractEvidence events links with havail
  rw [MoneyState.determineState]
  by_cases hcontra : (avail.contains "SETTLEMENT_CONFIRMATION" &&
      (avail.contains "PROCESSING_FAILURE" ||
        avail.contains "SETTLEMENT_REJECTION")) = true
  · rw [if_pos hcontra]
  · rw [if_neg hcontra]
    cases hps : MoneyState.possibleStates m.transitions avail with
    | nil =>
      exfalso
      rw [hps] at hnames
      simp at hnames
    | cons p rest =>
      rw [hps] at hnames
      have hlen : 1 < (p :: rest).length := by
        rcases hnames with ⟨hs, hf⟩ | ⟨ha, hf⟩
        · have := two_mem_one_lt_length hs hf (by decide)
          simpa using this
        · have := two_mem_one_lt_length ha hf (by decide)
          simpa using this
      have hcond : (decide ((p :: rest).length > 1) &&
          (((p :: rest).map (·.1)).contains "SETTLED" &&
              ((p :: rest).map (·.1)).contains "FAILED" ||
            ((p :: rest).map (·.1)).contains "AUTHORIZED" &&
              ((p :: rest).map (·.1)).contains "FAILED")) = true := by
        have hA : decide ((p :: rest).length > 1) = true := decide_eq_true hlen
        have hC : ((p :: rest).map (·.1)).contains "FAILED" = true := by
          rcases hnames with ⟨_, h2⟩ | ⟨_, h2⟩ <;> exact List.elem_iff.mpr h2
        rcases hnames with ⟨h1, _⟩ | ⟨h1, _⟩
        · have hB : ((p :: rest).map (·.1)).contains "SETTLED" = true :=
            List.elem_iff.mpr h1
          rw [hA, hB, hC]
          simp
        · have hD : ((p :: rest).map (·.1)).contains "AUTHORIZED" = true :=
            List.elem_iff.mpr h1
          rw [hA, hD, hC]
          simp
      show (if (decide ((p :: rest).length > 1) &&
          ((List.map (fun x => x.1) (p :: rest)).contains "SETTLED" &&
              (List.map (fun x => x.1) (p :: rest)).contains "FAILED" ||
            (List.map (fun x => x.1) (p :: rest)).contains "AUTHORIZED" &&
              (List.map (fun x => x.1) (p :: rest)).contains "FAILED")) = true then
          ("AMBIGUOUS",
            "Multiple plausible states detected: conflicting terminal states", 5)
        else ((MoneyState.pickBest p rest).1, (MoneyState.pickBest p rest).2.1,
          min (MoneyState.pickBest p rest).2.2 10)).1 = "AMBIGUOUS"
      rw [if_pos hcond]

theorem joinBarChars_cons_cons (a b : List Char) (l : List (List Char)) :
    joinBarChars (a :: b :: l) = a ++ '|' :: joinBarChars (b :: l) := rfl

theorem joinBar_data (l : List String) :
    (IdempotencyKeyGenerator.joinBar l).data = joinBarChars (l.map String.data) := by
  induction l with
  | nil => rfl
  | cons x xs ih =>
    cases xs with
    | nil => rfl
    | cons y ys =>
      show (x ++ "|" ++ IdempotencyKeyGenerator.joinBar (y :: ys)).data = _
      rw [String.data_append, String.data_append, ih, List.map_cons,
        List.map_cons, List.map_cons, joinBarChars_cons_cons]
      simp

theorem append_sep_inj (sep : Char) :
    ∀ {a : List Char} {b x y : List Char}, sep ∉ a → sep ∉ b →
    a ++ sep :: x = b ++ sep :: y → a = b ∧ x = y := by
  intro a
  induction a with
  | nil =>
    intro b x y _ hb heq
    cases b with
    | nil => simpa using heq
    | cons c cs =>
      simp at heq
      exact absurd (by rw [heq.1]; exact List.mem_cons_self c cs) hb
  | cons c cs ih =>
    intro b x y ha hb heq
    cases b with
    | nil =>
      simp at heq
      exact absurd (by rw [← heq.1]; exact List.mem_cons_self c cs) ha
    | cons d ds =>
      simp only [List.cons_append, List.cons.injEq] at heq
      obtain ⟨h1, h2⟩ := heq
      have hrec := ih (fun hm => ha (List.mem_cons_of_mem _ hm))
        (fun hm => hb (List.mem_cons_of_mem _ hm)) h2
      exact ⟨by rw [h1, hrec.1], hrec.2⟩

theorem joinBarChars_inj :
    ∀ {l1 l2 : List (List Char)},
    (∀ s ∈ l1, s ≠ [] ∧ '|' ∉ s) → (∀ s ∈ l2, s ≠ [] ∧ '|' ∉ s) →
    joinBarChars l1 = joinBarChars l2 → l1 = l2 := by
  intro l1
  induction l1 with
  | nil =>
    intro l2 _ h2 heq
    cases l2 with
    | nil => rfl
    | cons y ys =>
      cases ys with
      | nil => exact absurd heq.symm (h2 y (by simp)).1
      | cons z zs =>
        rw [joinBarChars_cons_cons] at heq
        rw [show joinBarChars [] = [] from rfl] at heq
        exact absurd heq.symm (by simp)
  | cons x xs ih =>
    intro l2 h1 h2 heq
    cases xs with
    | nil =>
      cases l2 with
      | nil => exact absurd heq (h1 x (by simp)).1
      | cons y ys =>
        cases ys with
        | nil =>
          rw [show joinBarChars [x] = x from rfl,
            show joinBarChars [y] = y from rfl] at heq
          rw [heq]
        | cons z zs =>
          exfalso
          apply (h1 x (by simp)).2
          rw [show joinBarChars [x] = x from rfl, joinBarChars_cons_cons] at heq
          rw [heq]
          exact List.mem_append_right _ (List.mem_cons_self _ _)
    | cons x2 xs2 =>
      cases l2 with
      | nil =>
        rw [joinBarChars_cons_cons, show joinBarChars [] = [] from rfl] at heq
        exact absurd heq (by simp)
      | cons y ys =>
        cases ys with
        | nil =>
          exfalso
          apply (h2 y (by simp)).2
          rw [show joinBarChars [y] = y from rfl, joinBarChars_cons_cons] at heq
          rw [← heq]
          exact List.mem_append_right _ (List.mem_cons_self _ _)
        | cons z zs =>
          rw [joinBarChars_cons_cons, joinBarChars_cons_cons] at heq
          have h := append_sep_inj '|' (h1 x (by simp)).2 (h2 y (by simp)).2 heq
          have ht := ih (fun s hs => h1 s (by simp [hs]))
            (fun s hs => h2 s (by simp [hs])) h.2
          rw [h.1, ht]

theorem key_fields_sep_free :
    ∀ f ∈ IdempotencyKeyGenerator.KEY_FIELDS_PRIORITY,
      ¬ '|' ∈ f.data ∧ ¬ ':' ∈ f.data := by decide

theorem source_not_in_tail :
    ¬ "source_event_id" ∈ IdempotencyKeyGenerator.KEY_FIELDS_PRIORITY.tail := by
  decide

theorem comp_data (f : String) (v : Value) :
    (f ++ ":" ++ IdempotencyKeyGenerator.normalizeValue v).data =
      f.data ++ ':' :: (IdempotencyKeyGenerator.normalizeValue v).data := by
  rw [String.data_append, String.data_append]
  simp

theorem keyComponents_props {e : Event}
    (hp : IdempotencyKeyGenerator.pipeFreeEvent e = true) :
    ∀ s ∈ (IdempotencyKeyGenerator.keyComponents e).map String.data,
      s ≠ [] ∧ '|' ∉ s := by
  intro s hs
  rw [List.mem_map] at hs
  obtain ⟨c, hc, hcd⟩ := hs
  obtain ⟨f, hf, hfc⟩ := List.mem_filterMap.mp hc
  cases hv : pyGet e f with
  | none => rw [hv] at hfc; simp at hfc
  | some v =>
    rw [hv] at hfc
    simp only [Option.map_some', Option.some.injEq] at hfc
    subst hfc
    subst hcd
    rw [comp_data]
    constructor
    · simp
    · have hfld := (key_fields_sep_free f hf).1
      have hval : ¬ '|' ∈ (IdempotencyKeyGenerator.normalizeValue v).data := by
        have hall := List.all_eq_true.mp hp f hf
        rw [hv] at hall
        simp only [Bool.not_eq_eq_eq_not, Bool.not_true] at hall
        intro hmem
        rw [List.contains_eq_any_beq] at hall
        have : (IdempotencyKeyGenerator.normalizeValue v).data.any
            (fun x => '|' == x) = true :=
          List.any_eq_true.mpr ⟨'|', hmem, by simp⟩
        rw [this] at hall
        simp at hall
      intro hmem
      rcases List.mem_append.mp hmem with hm | hm
      · exact hfld hm
      · rcases List.mem_cons.mp hm with hm | hm
        · simp at hm
        · exact hval hm

theorem keyComponents_split (e : Event) :
    IdempotencyKeyGenerator.keyComponents e =
      (match pyGet e "source_event_id" with
        | some v => ["source_event_id" ++ ":" ++
            IdempotencyKeyGenerator.normalizeValue v]
        | none => []) ++
      IdempotencyKeyGenerator.KEY_FIELDS_PRIORITY.tail.filterMap (fun f =>
        (pyGet e f).map fun v => f ++ ":" ++
          IdempotencyKeyGenerator.normalizeValue v) := by
  rw [IdempotencyKeyGenerator.keyComponents,
    show IdempotencyKeyGenerator.KEY_FIELDS_PRIORITY = "source_event_id" ::
      IdempotencyKeyGenerator.KEY_FIELDS_PRIORITY.tail from rfl,
    List.filterMap_cons]
  cases pyGet e "source_event_id" with
  | none => simp
  | some v => simp

theorem tail_comp_not_source {f : String} {v : Value} {w : Value}
    (hf : f ∈ IdempotencyKeyGenerator.KEY_FIELDS_PRIORITY.tail)
    (heq : f ++ ":" ++ IdempotencyKeyGenerator.normalizeValue v =
      "source_event_id" ++ ":" ++ IdempotencyKeyGenerator.normalizeValue w) :
    False := by
  have hfk : f ∈ IdempotencyKeyGenerator.KEY_FIELDS_PRIORITY :=
    List.mem_of_mem_tail hf
  have hdata := congrArg String.data heq
  rw [comp_data, comp_data] at hdata
  have h := append_sep_inj ':' (key_fields_sep_free f hfk).2 (by decide) hdata
  have : f = "source_event_id" := String.ext h.1
  exact source_not_in_tail (this ▸ hf)

theorem keyComponents_determines_source {e1 e2 : Event}
    (heq : IdempotencyKeyGenerator.keyComponents e1 =
      IdempotencyKeyGenerator.keyComponents e2) :
    (pyGet e1 "source_event_id").map IdempotencyKeyGenerator.normalizeValue =
      (pyGet e2 "source_event_id").map IdempotencyKeyGenerator.normalizeValue := by
  rw [keyComponents_split, keyComponents_split] at heq
  cases hv1 : pyGet e1 "source_event_id" with
  | none =>
    cases hv2 : pyGet e2 "source_event_id" with
    | none => rfl
    | some v2 =>
      exfalso
      rw [hv1, hv2] at heq
      simp only [List.nil_append, List.singleton_append] at heq
      have hmem : ("source_event_id" ++ ":" ++
          IdempotencyKeyGenerator.normalizeValue v2) ∈
          IdempotencyKeyGenerator.KEY_FIELDS_PRIORITY.tail.filterMap (fun f =>
            (pyGet e1 f).map fun v => f ++ ":" ++
              IdempotencyKeyGenerator.normalizeValue v) := by
        rw [heq]
        exact List.mem_cons_self _ _
      obtain ⟨f, hf, hfc⟩ := List.mem_filterMap.mp hmem
      cases hv : pyGet e1 f with
      | none => rw [hv] at hfc; simp at hfc
      | some v =>
        rw [hv] at hfc
        simp only [Option.map_some', Option.some.injEq] at hfc
        exact tail_comp_not_source hf hfc
  | some v1 =>
    cases hv2 : pyGet e2 "source_event_id" with
    | none =>
      exfalso
      rw [hv1, hv2] at heq
      simp only [List.nil_append, List.singleton_append] at heq
      have hmem : ("source_event_id" ++ ":" ++
          IdempotencyKeyGenerator.normalizeValue v1) ∈
          IdempotencyKeyGenerator.KEY_FIELDS_PRIORITY.tail.filterMap (fun f =>
            (pyGet e2 f).map fun v => f ++ ":" ++
              IdempotencyKeyGenerator.normalizeValue v) := by
        rw [← heq]
        exact List.mem_cons_self _ _
      obtain ⟨f, hf, hfc⟩ := List.mem_filterMap.mp hmem
      cases hv : pyGet e2 f with
      | none => rw [hv] at hfc; simp at hfc
      | some v =>
        rw [hv] at hfc
        simp only [Option.map_some', Option.some.injEq] at hfc
        exact tail_comp_not_source hf hfc
    | some v2 =>
      rw [hv1, hv2] at heq
      simp only [List.singleton_append, List.cons.injEq] at heq
      have hdata := congrArg String.data heq.1
      rw [comp_data, comp_data] at hdata
      have h := append_sep_inj ':' (by decide) (by decide) hdata
      simp only [Option.map_some', Option.some.injEq]
      exact String.ext h.2

/-- C4 counterexample: two events with the same `external_reference` and
different `source_event_id` values (one has a trailing blank) produce the
same key string and hence the same idempotency key — the generator's
whitespace normalisation collapses them before hashing. -/
theorem C4_counterexample_trim_collision :
    pyGet c4e1 "external_reference" = pyGet c4e2 "external_reference" ∧
      pyGet c4e1 "source_event_id" ≠ pyGet c4e2 "source_event_id" ∧
      IdempotencyKeyGenerator.keyString c4e1 =
        IdempotencyKeyGenerator.keyString c4e2 ∧
      IdempotencyKeyGenerator.generate (fun s => s) "1.0.0" c4e1 =
        IdempotencyKeyGenerator.generate (fun s => s) "1.0.0" c4e2 := by
  refine ⟨rfl, by decide, by decide, by decide⟩

/-- C4 (amended): keys differ for events with the same
`external_reference` whose `source_event_id` values are still different
after whitespace normalisation, provided no key-field value contains the
`|` separator and the hash is injective.  (The counterexample shows the
two provisos are necessary: trimming — and separator injection — can
collapse different field values into one key string.) -/
theorem C4_amended_distinct_keys_for_distinct_normalized_ids
    (h : String → String) (hinj : Function.Injective h) (version : String)
    (e1 e2 : Event)
    (hp1 : IdempotencyKeyGenerator.pipeFreeEvent e1 = true)
    (hp2 : IdempotencyKeyGenerator.pipeFreeEvent e2 = true)
    (_href : pyGet e1 "external_reference" = pyGet e2 "external_reference")
    (hse : (pyGet e1 "source_event_id").map IdempotencyKeyGenerator.normalizeValue ≠
      (pyGet e2 "source_event_id").map IdempotencyKeyGenerator.normalizeValue) :
    IdempotencyKeyGenerator.generate h version e1 ≠
      IdempotencyKeyGenerator.generate h version e2 := by
  intro hgen
  apply hse
  apply keyComponents_determines_source
  have hdata := congrArg String.data hgen
  rw [IdempotencyKeyGenerator.generate, IdempotencyKeyGenerator.generate,
    String.data_append, String.data_append] at hdata
  have hks : h (IdempotencyKeyGenerator.keyString e1) =
      h (IdempotencyKeyGenerator.keyString e2) :=
    String.ext (List.append_cancel_left hdata)
  have hkseq := hinj hks
  have hjoin := congrArg String.data hkseq
  rw [IdempotencyKeyGenerator.keyString, IdempotencyKeyGenerator.keyString,
    joinBar_data, joinBar_data] at hjoin
  have hcomp := joinBarChars_inj (keyComponents_props hp1)
    (keyComponents_props hp2) hjoin
  exact List.map_injective_iff.mpr (fun a b hab => String.ext hab) hcomp

/-- Witness for C4 (amended): pipe-free events with distinct normalised
`source_event_id`s get distinct keys under the identity hash. -/
theorem C4_amended_distinct_keys_witness :
    IdempotencyKeyGenerator.generate id "1.0.0" c4w1 ≠
      IdempotencyKeyGenerator.generate id "1.0.0" c4w2 :=
  C4_amended_distinct_keys_for_distinct_normalized_ids id (fun _ _ hab => hab)
    "1.0.0" c4w1 c4w2 (by decide) (by decide) (by decide) (by decide)

/-- Witness for C6 (amended): transitions to SETTLED and FAILED are both
satisfied, so the concrete evaluation is AMBIGUOUS. -/
theorem C6_amended_ambiguous_only_for_conflicting_pairs_witness :
    (MoneyState.evaluate (fun s => s) c6wMachine "flow-w" c6wEvents c6wLinks
      "2026-01-05T00:00:00Z" "ptr-w").state = "AMBIGUOUS" :=
  C6_amended_ambiguous_only_for_conflicting_pairs (fun s => s) c6wMachine
    "flow-w" c6wEvents c6wLinks "2026-01-05T00:00:00Z" "ptr-w"
    (Or.inl ⟨by decide, by decide⟩)

end Tenon
